import Mathlib

/-!
Verification of the RSNA-2024 keypoint-dataset target encoder
(`src/stage1/moyashii/sagittal/source/datasets/rsna2024_keypoint_dataset.py`)
and the stage-2 loss suite
(`src/stage2/suguuuuu/source/models/utils/loss.py`).

Python floats are modelled by real numbers (so "within floating tolerance"
statements become exact equalities), numpy integer and slice arithmetic by
`Int`/`Nat` with Python's slice-normalisation semantics made explicit, and
fallible operations (assertions, `torch.stack` on an empty list, broadcasting
failures, `dict` key errors) return `Except`/`Option`.
-/

namespace RSNA

/-! ### gaussian_radius (rsna2024_keypoint_dataset.py, lines 27-47)

The three placement cases set coefficients `(a_i, b_i, c_i)` and the code
computes `r_i = (b_i + sqrt(b_i**2 - 4*a_i*c_i)) / 2` for each case, returning
`min(r1, r2, r3)`. -/

/-- Case-1 leading coefficient `a1 = 1`. -/
noncomputable def quadA1 (_height _width _minOverlap : ℝ) : ℝ := 1

/-- Case-1 linear coefficient `b1 = height + width`. -/
noncomputable def quadB1 (height width _minOverlap : ℝ) : ℝ := height + width

/-- Case-1 constant coefficient
`c1 = width * height * (1 - min_overlap) / (1 + min_overlap)`. -/
noncomputable def quadC1 (height width minOverlap : ℝ) : ℝ :=
  width * height * (1 - minOverlap) / (1 + minOverlap)

/-- Case-2 leading coefficient `a2 = 4`. -/
noncomputable def quadA2 (_height _width _minOverlap : ℝ) : ℝ := 4

/-- Case-2 linear coefficient `b2 = 2 * (height + width)`. -/
noncomputable def quadB2 (height width _minOverlap : ℝ) : ℝ := 2 * (height + width)

/-- Case-2 constant coefficient `c2 = (1 - min_overlap) * width * height`. -/
noncomputable def quadC2 (height width minOverlap : ℝ) : ℝ := (1 - minOverlap) * width * height

/-- Case-3 leading coefficient `a3 = 4 * min_overlap`. -/
noncomputable def quadA3 (_height _width minOverlap : ℝ) : ℝ := 4 * minOverlap

/-- Case-3 linear coefficient `b3 = -2 * min_overlap * (height + width)`. -/
noncomputable def quadB3 (height width minOverlap : ℝ) : ℝ := -2 * minOverlap * (height + width)

/-- Case-3 constant coefficient `c3 = (min_overlap - 1) * width * height`. -/
noncomputable def quadC3 (height width minOverlap : ℝ) : ℝ := (minOverlap - 1) * width * height

/-- Case-1 value `r1 = (b1 + sqrt(b1**2 - 4*a1*c1)) / 2` with `a1 = 1`. -/
noncomputable def gr1 (height width minOverlap : ℝ) : ℝ :=
  (quadB1 height width minOverlap +
    Real.sqrt (quadB1 height width minOverlap ^ 2 -
      4 * quadA1 height width minOverlap * quadC1 height width minOverlap)) / 2

/-- Case-2 value `r2 = (b2 + sqrt(b2**2 - 4*a2*c2)) / 2`. -/
noncomputable def gr2 (height width minOverlap : ℝ) : ℝ :=
  (quadB2 height width minOverlap +
    Real.sqrt (quadB2 height width minOverlap ^ 2 -
      4 * quadA2 height width minOverlap * quadC2 height width minOverlap)) / 2

/-- Case-3 value `r3 = (b3 + sqrt(b3**2 - 4*a3*c3)) / 2`. -/
noncomputable def gr3 (height width minOverlap : ℝ) : ℝ :=
  (quadB3 height width minOverlap +
    Real.sqrt (quadB3 height width minOverlap ^ 2 -
      4 * quadA3 height width minOverlap * quadC3 height width minOverlap)) / 2

/-- `gaussian_radius(det_size, min_overlap) = min(r1, r2, r3)`. -/
noncomputable def gaussian_radius (height width minOverlap : ℝ) : ℝ :=
  min (gr1 height width minOverlap)
    (min (gr2 height width minOverlap) (gr3 height width minOverlap))

/-! ### draw_gaussian and gaussian2D (rsna2024_keypoint_dataset.py, lines 50-74)

`heatmap` is modelled as a total function `ℕ → ℕ → ℝ` together with its shape
`(H, W)`; numpy basic slicing `a : b` (step 1) is modelled by Python's
slice-bound normalisation; the in-place `np.maximum(..., out=...)` write is
modelled functionally, with a broadcasting failure returning `Except.error`. -/

/-- Python `round` (round half to even) on a real number. -/
noncomputable def pyround (x : ℝ) : ℤ :=
  if x - ⌊x⌋ < 1/2 then ⌊x⌋
  else if 1/2 < x - ⌊x⌋ then ⌊x⌋ + 1
  else if Even ⌊x⌋ then ⌊x⌋ else ⌊x⌋ + 1

/-- Python slice-bound normalisation for a sequence of length `L` (step 1):
a negative bound counts from the end, and the result is clamped into `[0, L]`. -/
def sliceBound (L : ℕ) (a : ℤ) : ℕ :=
  if a < 0 then ((L : ℤ) + a).toNat else min a.toNat L

/-- Raw `gaussian2D` kernel entry at grid position `(gi, gj)` of the
`(2r+1) x (2r+1)` kernel with `sigma = diameter / 6`:
`exp(-(x*x + y*y) / (2*sigma*sigma))` with `y = gi - r`, `x = gj - r`. -/
noncomputable def gauss2Draw (r : ℕ) (gi gj : ℕ) : ℝ :=
  Real.exp (-(((gj : ℝ) - (r : ℝ)) ^ 2 + ((gi : ℝ) - (r : ℝ)) ^ 2) /
    (2 * ((2 * (r : ℝ) + 1) / 6) ^ 2))

/-- `h.max()` over the kernel grid. -/
noncomputable def gauss2Dmax (r : ℕ) : ℝ :=
  (Finset.range (2 * r + 1) ×ˢ Finset.range (2 * r + 1)).sup'
    ⟨(0, 0), Finset.mem_product.mpr
      ⟨Finset.mem_range.mpr (by omega), Finset.mem_range.mpr (by omega)⟩⟩
    (fun p => gauss2Draw r p.1 p.2)

/-- `gaussian2D((2r+1, 2r+1), sigma = (2r+1)/6)` entry after the epsilon
sparsification `h[h < np.finfo(h.dtype).eps * h.max()] = 0`
(float64 machine epsilon is `2^-52`). -/
noncomputable def gauss2D (r : ℕ) (gi gj : ℕ) : ℝ :=
  if gauss2Draw r gi gj < (2:ℝ) ^ (-52 : ℤ) * gauss2Dmax r then 0
  else gauss2Draw r gi gj

/-- The destination-slice and kernel-slice bounds computed by `draw_gaussian`:
`heatmap[y-top : y+bottom, x-left : x+right]` and
`gaussian[radius-top : radius+bottom, radius-left : radius+right]`. -/
structure DrawRegion where
  rs : ℕ
  re : ℕ
  cs : ℕ
  ce : ℕ
  grs : ℕ
  gre : ℕ
  gcs : ℕ
  gce : ℕ

/-- The slice bounds of `draw_gaussian` for a heatmap of shape `(H, W)`,
center `(cx, cy)` and integer radius `r`, after Python slice normalisation. -/
noncomputable def drawRegion (H W : ℕ) (cx cy : ℝ) (r : ℕ) : DrawRegion where
  rs := sliceBound H (pyround cy - min (pyround cy) (r : ℤ))
  re := sliceBound H (pyround cy + min ((H : ℤ) - pyround cy) ((r : ℤ) + 1))
  cs := sliceBound W (pyround cx - min (pyround cx) (r : ℤ))
  ce := sliceBound W (pyround cx + min ((W : ℤ) - pyround cx) ((r : ℤ) + 1))
  grs := sliceBound (2 * r + 1) ((r : ℤ) - min (pyround cy) (r : ℤ))
  gre := sliceBound (2 * r + 1) ((r : ℤ) + min ((H : ℤ) - pyround cy) ((r : ℤ) + 1))
  gcs := sliceBound (2 * r + 1) ((r : ℤ) - min (pyround cx) (r : ℤ))
  gce := sliceBound (2 * r + 1) ((r : ℤ) + min ((W : ℤ) - pyround cx) ((r : ℤ) + 1))

/-- The heatmap contents after `draw_gaussian` when the write succeeds: the
element-wise `np.maximum` combine on the destination slice (with numpy
broadcasting of a size-1 kernel axis), identity everywhere else, and identity
when the `min(shape) > 0` guard fails on either view. -/
noncomputable def drawFun (H W : ℕ) (heat : ℕ → ℕ → ℝ) (cx cy : ℝ) (r : ℕ) (k : ℝ) :
    ℕ → ℕ → ℝ :=
  if 0 < (drawRegion H W cx cy r).re - (drawRegion H W cx cy r).rs ∧
      0 < (drawRegion H W cx cy r).ce - (drawRegion H W cx cy r).cs ∧
      0 < (drawRegion H W cx cy r).gre - (drawRegion H W cx cy r).grs ∧
      0 < (drawRegion H W cx cy r).gce - (drawRegion H W cx cy r).gcs then
    fun i j =>
      if (drawRegion H W cx cy r).rs ≤ i ∧ i < (drawRegion H W cx cy r).re ∧
          (drawRegion H W cx cy r).cs ≤ j ∧ j < (drawRegion H W cx cy r).ce then
        max (heat i j)
          (gauss2D r
            ((drawRegion H W cx cy r).grs +
              (if (drawRegion H W cx cy r).gre - (drawRegion H W cx cy r).grs = 1 then 0
                else i - (drawRegion H W cx cy r).rs))
            ((drawRegion H W cx cy r).gcs +
              (if (drawRegion H W cx cy r).gce - (drawRegion H W cx cy r).gcs = 1 then 0
                else j - (drawRegion H W cx cy r).cs)) * k)
      else heat i j
  else heat

/-- `draw_gaussian(heatmap, center, radius, k=1)`: slices both the heatmap and
the kernel, and when both views are non-empty writes
`np.maximum(masked_heatmap, masked_gaussian * k, out=masked_heatmap)`;
a numpy broadcasting failure (kernel view not broadcastable to the heatmap
view) would raise, modelled as `Except.error`. -/
noncomputable def draw_gaussian (H W : ℕ) (heat : ℕ → ℕ → ℝ) (cx cy : ℝ) (r : ℕ)
    (k : ℝ) : Except String (ℕ → ℕ → ℝ) :=
  if 0 < (drawRegion H W cx cy r).re - (drawRegion H W cx cy r).rs ∧
      0 < (drawRegion H W cx cy r).ce - (drawRegion H W cx cy r).cs ∧
      0 < (drawRegion H W cx cy r).gre - (drawRegion H W cx cy r).grs ∧
      0 < (drawRegion H W cx cy r).gce - (drawRegion H W cx cy r).gcs then
    if ((drawRegion H W cx cy r).gre - (drawRegion H W cx cy r).grs =
          (drawRegion H W cx cy r).re - (drawRegion H W cx cy r).rs ∨
        (drawRegion H W cx cy r).gre - (drawRegion H W cx cy r).grs = 1) ∧
        ((drawRegion H W cx cy r).gce - (drawRegion H W cx cy r).gcs =
          (drawRegion H W cx cy r).ce - (drawRegion H W cx cy r).cs ∨
        (drawRegion H W cx cy r).gce - (drawRegion H W cx cy r).gcs = 1) then
      Except.ok (fun i j =>
        if (drawRegion H W cx cy r).rs ≤ i ∧ i < (drawRegion H W cx cy r).re ∧
            (drawRegion H W cx cy r).cs ≤ j ∧ j < (drawRegion H W cx cy r).ce then
          max (heat i j)
            (gauss2D r
              ((drawRegion H W cx cy r).grs +
                (if (drawRegion H W cx cy r).gre - (drawRegion H W cx cy r).grs = 1 then 0
                  else i - (drawRegion H W cx cy r).rs))
              ((drawRegion H W cx cy r).gcs +
                (if (drawRegion H W cx cy r).gce - (drawRegion H W cx cy r).gcs = 1 then 0
                  else j - (drawRegion H W cx cy r).cs)) * k)
        else heat i j)
    else Except.error "operands could not be broadcast together"
  else Except.ok heat

/-! ### _select_n_elements (rsna2024_keypoint_dataset.py, lines 187-198)

`np.linspace` on integer endpoints is exact (the step is exactly 1 here), so
it is modelled in rational arithmetic; `astype(int)` is C truncation toward
zero and `np.clip(x, lo, hi) = np.minimum(np.maximum(x, lo), hi)`. -/

/-- C-style truncation toward zero (numpy `astype(int)` on a float value). -/
def ratTrunc (q : ℚ) : ℤ := if 0 ≤ q then ⌊q⌋ else -⌊-q⌋

/-- `np.linspace(a, b, num)` with endpoint, in exact rational arithmetic:
`a + i * (b - a) / (num - 1)` for `i = 0 .. num-1` (and `[a]` for `num = 1`). -/
def linspace (a b : ℚ) (num : ℕ) : List ℚ :=
  if num = 1 then [a]
  else (List.range num).map (fun (i : ℕ) => a + (i : ℚ) * ((b - a) / ((num : ℚ) - 1)))

/-- `np.clip(x, lo, hi)`. -/
def npclip (x lo hi : ℤ) : ℤ := min (max x lo) hi

/-- The index array of `_select_n_elements(lst, n, base_index)`:
`np.clip(np.linspace(base - offset, base + offset, n).astype(int), 0, length-1)`
with `offset = n // 2`. -/
def selectIndices (length n : ℕ) (base : ℤ) : List ℤ :=
  (linspace ((base - (n / 2 : ℕ) : ℤ) : ℚ) ((base + (n / 2 : ℕ) : ℤ) : ℚ) n).map
    (fun q => npclip (ratTrunc q) 0 ((length : ℤ) - 1))

/-- `_select_n_elements(lst, n, base_index)` returns `lst[indices]`. -/
def selectNElements {α : Type} [Inhabited α] (lst : List α) (n : ℕ) (base : ℤ) :
    List α :=
  (selectIndices lst.length n base).map (fun i => lst.getD i.toNat default)

/-! ### V2 base-index resolution (rsna2024_keypoint_dataset.py, lines 204-229) -/

/-- The reference-slice resolution of
`RSNA2024KeypointDatasetTrainV2.__getitem__`: scan the sorted slice files'
instance numbers for the row's instance number (`break` at the first match),
`assert base_index != -1`, and only afterwards replace the base index by the
series middle `len(image_paths) // 2` when `use_center` is set. -/
def v2BaseIndex (instanceNumbers : List ℤ) (baseInstanceNumber : ℤ)
    (useCenter : Bool) : Except String ℕ :=
  match instanceNumbers.findIdx? (fun x => x == baseInstanceNumber) with
  | none => Except.error "base_index is not found."
  | some i => Except.ok (if useCenter then instanceNumbers.length / 2 else i)

/-! ### loss.py: FocalLoss and its comparison to weighted cross-entropy
(loss.py, lines 61-146) -/

/-- The reduction modes compared in the refinement claim. -/
inductive Reduction
  | mean
  | sum

/-- `log_softmax` of a logits row `xs` at class `j`:
`x_j - log (sum_k exp x_k)`. -/
noncomputable def logSoftmaxAt (xs : List ℝ) (j : ℕ) : ℝ :=
  xs.getD j 0 - Real.log (xs.map Real.exp).sum

/-- NLL class weight: `alpha[c]` when a class-weight vector is configured,
else 1. -/
noncomputable def classWeight (alpha : Option (List ℝ)) (c : ℕ) : ℝ :=
  match alpha with
  | none => 1
  | some a => a.getD c 0

/-- The `(row, label)` pairs surviving the `ignore_index` mask
(`unignored_mask = y != self.ignore_index`). -/
def keptRows (x : List (List ℝ)) (y : List ℤ) (ignoreIndex : ℤ) :
    List (List ℝ × ℤ) :=
  (x.zip y).filter (fun p => p.2 != ignoreIndex)

/-- Per-row values of `FocalLoss.forward`:
`(1 - pt)^gamma * ce` with `pt = exp(log_pt)` and the weighted cross-entropy
term `ce = -alpha_y * log_softmax(x)_y` (real power for `** gamma`). -/
noncomputable def focalTerms (alpha : Option (List ℝ)) (gamma : ℝ)
    (ignoreIndex : ℤ) (x : List (List ℝ)) (y : List ℤ) : List ℝ :=
  (keptRows x y ignoreIndex).map (fun p =>
    (1 - Real.exp (logSoftmaxAt p.1 p.2.toNat)) ^ gamma *
      (classWeight alpha p.2.toNat * -logSoftmaxAt p.1 p.2.toNat))

/-- `FocalLoss.forward` with `mean`/`sum` reduction: returns `tensor(0.)` on
an all-ignored batch, otherwise reduces the per-row values (`loss.mean()` is
the plain arithmetic mean over the surviving rows). -/
noncomputable def focalLoss (alpha : Option (List ℝ)) (gamma : ℝ)
    (reduction : Reduction) (ignoreIndex : ℤ) (x : List (List ℝ)) (y : List ℤ) :
    ℝ :=
  if (keptRows x y ignoreIndex).isEmpty then 0
  else
    match reduction with
    | Reduction.mean => (focalTerms alpha gamma ignoreIndex x y).sum /
        (focalTerms alpha gamma ignoreIndex x y).length
    | Reduction.sum => (focalTerms alpha gamma ignoreIndex x y).sum

/-- Per-row values of torch weighted cross-entropy:
`-w_y * log_softmax(x)_y` over the non-ignored rows. -/
noncomputable def ceTerms (weight : Option (List ℝ)) (ignoreIndex : ℤ)
    (x : List (List ℝ)) (y : List ℤ) : List ℝ :=
  (keptRows x y ignoreIndex).map (fun p =>
    -(classWeight weight p.2.toNat * logSoftmaxAt p.1 p.2.toNat))

/-- Modelled from the spec: "plain weighted cross-entropy with the same
weights, targets, ignore_index and reduction", i.e. torch
`nn.CrossEntropyLoss`, whose documented `mean` reduction is the weighted mean
`sum_i w_{y_i} l_i / sum_i w_{y_i}` over the non-ignored rows. -/
noncomputable def crossEntropyLoss (weight : Option (List ℝ))
    (reduction : Reduction) (ignoreIndex : ℤ) (x : List (List ℝ)) (y : List ℤ) :
    ℝ :=
  match reduction with
  | Reduction.mean => (ceTerms weight ignoreIndex x y).sum /
      ((keptRows x y ignoreIndex).map (fun p => classWeight weight p.2.toNat)).sum
  | Reduction.sum => (ceTerms weight ignoreIndex x y).sum

/-! ### loss.py: RSNA2024Loss.forward (lines 185-225) -/

/-- `torch.mean(torch.stack(values))`: `torch.stack` raises
`RuntimeError: stack expects a non-empty TensorList` on an empty list. -/
noncomputable def stackMean (values : List ℝ) : Except String ℝ :=
  if values.isEmpty then Except.error "stack expects a non-empty TensorList"
  else Except.ok (values.sum / values.length)

/-- `RSNA2024Loss.forward`: per-(condition, level) partial losses (the
configured classification-loss module and the level-loss module are
abstracted as the value tables `celoss` and `levelloss`, since their inputs
are slices of the logits/targets tensors), weighted by `condition_weight` and
mean-stacked into the overall loss; when `level_loss_weight > 0` the level
losses are collected only for level columns whose targets are not all the
ignore sentinel `-100`, then mean-stacked.  Returns
`(overall_loss, level_loss, loss)`. -/
noncomputable def rsnaForward (numConditions numLevels : ℕ)
    (conditionWeight : ℕ → ℝ) (overallLossWeight levelLossWeight : ℝ)
    (celoss : ℕ → ℕ → ℝ) (levelloss : ℕ → ℝ) (levelTargets : ℕ → List ℤ) :
    Except String (ℝ × ℝ × ℝ) := do
  let overall ← stackMean ((List.range numConditions).flatMap (fun ci =>
    (List.range numLevels).map (fun li => celoss ci li * conditionWeight ci)))
  if 0 < levelLossWeight then
    let lvl ← stackMean ((List.range numLevels).filterMap (fun li =>
      if (levelTargets li).any (fun t => t != -100) then some (levelloss li)
      else none))
    return (overall, lvl, overallLossWeight * overall + levelLossWeight * lvl)
  else
    return (overall, 0, overallLossWeight * overall + levelLossWeight * 0)

/-! ### loss.py: RSNA2024Loss.__init__ and the caller's ce_loss dict
(lines 149-183) -/

/-- A Python value stored in the `ce_loss` config dict: a string, a list of
numbers, or a torch tensor built from such a list. -/
inductive CfgVal
  | str (s : String)
  | nums (l : List ℚ)
  | tensor (l : List ℚ)
deriving DecidableEq

/-- `torch.tensor(v)` on a config value. -/
def tensorize : CfgVal → CfgVal
  | CfgVal.nums l => CfgVal.tensor l
  | CfgVal.tensor l => CfgVal.tensor l
  | CfgVal.str s => CfgVal.str s

/-- The Python exceptions raised by `RSNA2024Loss.__init__`. -/
inductive PyErr
  | keyError
  | valueError
deriving DecidableEq

/-- `RSNA2024Loss.__init__`'s handling of the caller's `ce_loss` dict
(modelled as an association list): `ce_loss.pop('name')` (KeyError when the
key is missing), then for `'CrossEntropyLoss'` pop `'weight'` (resp.
`'alpha'` for `'FocalLoss'`) when present and re-insert it as a tensor; any
other name raises ValueError.  Returns the chosen loss kind together with the
final state of the caller's dict, which is mutated in place. -/
def rsna2024LossInit (ceLoss : List (String × CfgVal)) :
    Except PyErr (String × List (String × CfgVal)) :=
  match List.lookup "name" ceLoss with
  | none => Except.error PyErr.keyError
  | some nameVal =>
    if nameVal = CfgVal.str "CrossEntropyLoss" then
      match List.lookup "weight" (ceLoss.filter (fun p => p.1 != "name")) with
      | none => Except.ok ("CrossEntropyLoss", ceLoss.filter (fun p => p.1 != "name"))
      | some w => Except.ok ("CrossEntropyLoss",
          ((ceLoss.filter (fun p => p.1 != "name")).filter
            (fun p => p.1 != "weight")) ++ [("weight", tensorize w)])
    else if nameVal = CfgVal.str "FocalLoss" then
      match List.lookup "alpha" (ceLoss.filter (fun p => p.1 != "name")) with
      | none => Except.ok ("FocalLoss", ceLoss.filter (fun p => p.1 != "name"))
      | some a => Except.ok ("FocalLoss",
          ((ceLoss.filter (fun p => p.1 != "name")).filter
            (fun p => p.1 != "alpha")) ++ [("alpha", tensorize a)])
    else Except.error PyErr.valueError

/-! ### Dataset heatmap targets (rsna2024_keypoint_dataset.py, lines 128-145
and 256-277)

The part of `__getitem__` after augmentation: build
`heatmap = np.zeros([len(self._labels), h // stride, w // stride])`, compute
one shared radius, and stamp one Gaussian per surviving keypoint on the
channel given by its class label. -/

/-- The fixed `_labels` dictionary shared by both keypoint datasets. -/
def labelIndex (s : String) : Option ℕ :=
  if s = "L1/L2" then some 0
  else if s = "L2/L3" then some 1
  else if s = "L3/L4" then some 2
  else if s = "L4/L5" then some 3
  else if s = "L5/S1" then some 4
  else none

/-- Python `int()` truncation toward zero on a real value. -/
noncomputable def pyint (x : ℝ) : ℤ := if 0 ≤ x then ⌊x⌋ else -⌊-x⌋

/-- `radius = max(0, int(gaussian_radius([s // stride for s in heatmap_size])))`
with the default `min_overlap = 0.7`. -/
noncomputable def datasetRadius (hmHeight hmWidth stride : ℕ) : ℕ :=
  (max 0 (pyint (gaussian_radius ((hmHeight / stride : ℕ) : ℝ)
    ((hmWidth / stride : ℕ) : ℝ) (7/10)))).toNat

/-- The stamping loop of `__getitem__`: for each surviving
`(keypoint, class_label)` pair, `index = self._labels[class_label]` (a missing
label would be a Python KeyError) and
`draw_gaussian(heatmap[index], (kpt_x / stride, kpt_y / stride), radius)`
with the default amplitude `k = 1`. -/
noncomputable def stampKeypoints (H W r stride : ℕ) :
    List ((ℝ × ℝ) × String) → (ℕ → ℕ → ℕ → ℝ) → Except String (ℕ → ℕ → ℕ → ℝ)
  | [], hm => Except.ok hm
  | p :: rest, hm =>
    match labelIndex p.2 with
    | none => Except.error "KeyError"
    | some c =>
      match draw_gaussian H W (hm c) (p.1.1 / (stride : ℝ)) (p.1.2 / (stride : ℝ))
          r 1 with
      | Except.error e => Except.error e
      | Except.ok ch =>
        stampKeypoints H W r stride rest (fun c' => if c' = c then ch else hm c')

/-- The pure contents of the stamping loop (it is proved below that the loop
never fails and computes this function). -/
noncomputable def stampKeypointsFun (H W r stride : ℕ) :
    List ((ℝ × ℝ) × String) → (ℕ → ℕ → ℕ → ℝ) → (ℕ → ℕ → ℕ → ℝ)
  | [], hm => hm
  | p :: rest, hm =>
    stampKeypointsFun H W r stride rest (fun c' =>
      if labelIndex p.2 = some c' then
        drawFun H W (hm c') (p.1.1 / (stride : ℝ)) (p.1.2 / (stride : ℝ)) r 1
      else hm c')

/-- The heatmap targets of `__getitem__`: zeros of shape
`(5, h // stride, w // stride)` followed by the stamping loop with the shared
dataset radius. -/
noncomputable def datasetHeatmap (h w stride hmHeight hmWidth : ℕ)
    (kpts : List ((ℝ × ℝ) × String)) : Except String (ℕ → ℕ → ℕ → ℝ) :=
  stampKeypoints (h / stride) (w / stride) (datasetRadius hmHeight hmWidth stride)
    stride kpts (fun _ _ _ => 0)

lemma quadB1_def (height width minOverlap : ℝ) :
    quadB1 height width minOverlap = height + width := rfl

lemma quadB2_def (height width minOverlap : ℝ) :
    quadB2 height width minOverlap = 2 * (height + width) := rfl

lemma quadB3_def (height width minOverlap : ℝ) :
    quadB3 height width minOverlap = -2 * minOverlap * (height + width) := rfl

lemma gr1_def (height width minOverlap : ℝ) :
    gr1 height width minOverlap =
      (quadB1 height width minOverlap +
        Real.sqrt (quadB1 height width minOverlap ^ 2 -
          4 * quadA1 height width minOverlap * quadC1 height width minOverlap)) / 2 := rfl

lemma gr2_def (height width minOverlap : ℝ) :
    gr2 height width minOverlap =
      (quadB2 height width minOverlap +
        Real.sqrt (quadB2 height width minOverlap ^ 2 -
          4 * quadA2 height width minOverlap * quadC2 height width minOverlap)) / 2 := rfl

lemma gr3_def (height width minOverlap : ℝ) :
    gr3 height width minOverlap =
      (quadB3 height width minOverlap +
        Real.sqrt (quadB3 height width minOverlap ^ 2 -
          4 * quadA3 height width minOverlap * quadC3 height width minOverlap)) / 2 := rfl

/-- If `(2x - b)^2 ≤ D` then `x` is at most the "plus" value `(b + sqrt D)/2`. -/
lemma le_rootPlus (b D x : ℝ) (h : (2 * x - b) ^ 2 ≤ D) :
    x ≤ (b + Real.sqrt D) / 2 := by
  have h1 : Real.sqrt ((2 * x - b) ^ 2) ≤ Real.sqrt D := Real.sqrt_le_sqrt h
  rw [Real.sqrt_sq_eq_abs] at h1
  have h2 := le_abs_self (2 * x - b)
  linarith

/-- The "plus" value `(b + sqrt D)/2` satisfies `x^2 = b*x - (b^2 - D)/4`. -/
lemma rootPlus_sq (b D : ℝ) (hD : 0 ≤ D) :
    ((b + Real.sqrt D) / 2) ^ 2 =
      b * ((b + Real.sqrt D) / 2) - (b ^ 2 - D) / 4 := by
  have h := Real.sq_sqrt hD
  linear_combination h / 4

lemma quadC1_le (height width minOverlap : ℝ) (hh : 0 < height) (hw : 0 < width)
    (ho : 0 < minOverlap) (ho1 : minOverlap < 1) :
    quadC1 height width minOverlap ≤ width * height := by
  unfold quadC1
  rw [div_le_iff₀ (by linarith)]
  nlinarith [mul_pos (mul_pos hw hh) ho]

lemma discrim1_ge (height width minOverlap : ℝ) (hh : 0 < height) (hw : 0 < width)
    (ho : 0 < minOverlap) (ho1 : minOverlap < 1) :
    (height - width) ^ 2 ≤
      quadB1 height width minOverlap ^ 2 - 4 * quadA1 height width minOverlap * quadC1 height width minOverlap := by
  have hc := quadC1_le height width minOverlap hh hw ho ho1
  unfold quadB1 quadA1
  nlinarith

lemma discrim1_nonneg (height width minOverlap : ℝ) (hh : 0 < height) (hw : 0 < width)
    (ho : 0 < minOverlap) (ho1 : minOverlap < 1) :
    0 ≤ quadB1 height width minOverlap ^ 2 - 4 * quadA1 height width minOverlap * quadC1 height width minOverlap :=
  le_trans (sq_nonneg _) (discrim1_ge height width minOverlap hh hw ho ho1)

lemma discrim2_ge (height width minOverlap : ℝ) (hh : 0 < height) (hw : 0 < width)
    (ho : 0 < minOverlap) (ho1 : minOverlap < 1) :
    (2 * (height - width)) ^ 2 ≤
      quadB2 height width minOverlap ^ 2 -
        4 * quadA2 height width minOverlap * quadC2 height width minOverlap := by
  unfold quadB2 quadA2 quadC2
  nlinarith [mul_pos (mul_pos ho hw) hh]

lemma discrim2_nonneg (height width minOverlap : ℝ) (hh : 0 < height) (hw : 0 < width)
    (ho : 0 < minOverlap) (ho1 : minOverlap < 1) :
    0 ≤ quadB2 height width minOverlap ^ 2 -
        4 * quadA2 height width minOverlap * quadC2 height width minOverlap :=
  le_trans (sq_nonneg _) (discrim2_ge height width minOverlap hh hw ho ho1)

lemma discrim3_eq (height width minOverlap : ℝ) :
    quadB3 height width minOverlap ^ 2 -
        4 * quadA3 height width minOverlap * quadC3 height width minOverlap =
      quadB3 height width minOverlap ^ 2 +
        16 * minOverlap * (1 - minOverlap) * width * height := by
  unfold quadB3 quadA3 quadC3
  ring

lemma discrim3_nonneg (height width minOverlap : ℝ) (hh : 0 < height) (hw : 0 < width)
    (ho : 0 < minOverlap) (ho1 : minOverlap < 1) :
    0 ≤ quadB3 height width minOverlap ^ 2 -
        4 * quadA3 height width minOverlap * quadC3 height width minOverlap := by
  rw [discrim3_eq]
  nlinarith [sq_nonneg (quadB3 height width minOverlap),
    mul_pos (mul_pos (mul_pos ho (by linarith : (0:ℝ) < 1 - minOverlap)) hw) hh]

lemma gr1_root (height width minOverlap : ℝ) (hh : 0 < height) (hw : 0 < width)
    (ho : 0 < minOverlap) (ho1 : minOverlap < 1) :
    gr1 height width minOverlap ^ 2 -
        quadB1 height width minOverlap * gr1 height width minOverlap +
        quadA1 height width minOverlap * quadC1 height width minOverlap = 0 := by
  have h := rootPlus_sq (quadB1 height width minOverlap)
    (quadB1 height width minOverlap ^ 2 - 4 * quadA1 height width minOverlap * quadC1 height width minOverlap)
    (discrim1_nonneg height width minOverlap hh hw ho ho1)
  rw [show quadA1 height width minOverlap = 1 from rfl] at h ⊢
  unfold gr1
  rw [show quadA1 height width minOverlap = 1 from rfl]
  linear_combination h

lemma gr2_root (height width minOverlap : ℝ) (hh : 0 < height) (hw : 0 < width)
    (ho : 0 < minOverlap) (ho1 : minOverlap < 1) :
    gr2 height width minOverlap ^ 2 -
        quadB2 height width minOverlap * gr2 height width minOverlap +
        quadA2 height width minOverlap * quadC2 height width minOverlap = 0 := by
  have h := rootPlus_sq (quadB2 height width minOverlap)
    (quadB2 height width minOverlap ^ 2 -
      4 * quadA2 height width minOverlap * quadC2 height width minOverlap)
    (discrim2_nonneg height width minOverlap hh hw ho ho1)
  unfold gr2
  linear_combination h

lemma gr3_root (height width minOverlap : ℝ) (hh : 0 < height) (hw : 0 < width)
    (ho : 0 < minOverlap) (ho1 : minOverlap < 1) :
    gr3 height width minOverlap ^ 2 -
        quadB3 height width minOverlap * gr3 height width minOverlap +
        quadA3 height width minOverlap * quadC3 height width minOverlap = 0 := by
  have h := rootPlus_sq (quadB3 height width minOverlap)
    (quadB3 height width minOverlap ^ 2 -
      4 * quadA3 height width minOverlap * quadC3 height width minOverlap)
    (discrim3_nonneg height width minOverlap hh hw ho ho1)
  unfold gr3
  linear_combination h

lemma gr1_ge_width (height width minOverlap : ℝ) (hh : 0 < height) (hw : 0 < width)
    (ho : 0 < minOverlap) (ho1 : minOverlap < 1) :
    width ≤ gr1 height width minOverlap := by
  have hD := discrim1_ge height width minOverlap hh hw ho ho1
  have h1 : Real.sqrt ((height - width) ^ 2) ≤
      Real.sqrt (quadB1 height width minOverlap ^ 2 -
        4 * quadA1 height width minOverlap * quadC1 height width minOverlap) := Real.sqrt_le_sqrt hD
  rw [Real.sqrt_sq_eq_abs] at h1
  have h2 : width - height ≤ |height - width| := by
    rw [abs_sub_comm]
    exact le_abs_self _
  rw [gr1_def]
  have hb := quadB1_def height width minOverlap
  linarith

lemma gr2_ge_two_width (height width minOverlap : ℝ) (hh : 0 < height) (hw : 0 < width)
    (ho : 0 < minOverlap) (ho1 : minOverlap < 1) :
    2 * width ≤ gr2 height width minOverlap := by
  have hD := discrim2_ge height width minOverlap hh hw ho ho1
  have h1 : Real.sqrt ((2 * (height - width)) ^ 2) ≤
      Real.sqrt (quadB2 height width minOverlap ^ 2 -
        4 * quadA2 height width minOverlap * quadC2 height width minOverlap) :=
    Real.sqrt_le_sqrt hD
  rw [Real.sqrt_sq_eq_abs] at h1
  have h2 : 2 * (width - height) ≤ |2 * (height - width)| := by
    have habs : |2 * (height - width)| = |2 * (width - height)| := by
      rw [show (2 : ℝ) * (height - width) = -(2 * (width - height)) by ring, abs_neg]
    rw [habs]
    exact le_abs_self _
  rw [gr2_def]
  have hb := quadB2_def height width minOverlap
  linarith

lemma gr3_le (height width minOverlap : ℝ) (hh : 0 < height) (hw : 0 < width)
    (ho : 0 < minOverlap) (ho1 : minOverlap < 1) :
    gr3 height width minOverlap ≤ 2 * (1 - minOverlap) * width := by
  have hM0 : (0:ℝ) ≤ 2 * minOverlap * (height + width) + 4 * (1 - minOverlap) * width := by
    nlinarith
  have hDM : quadB3 height width minOverlap ^ 2 -
      4 * quadA3 height width minOverlap * quadC3 height width minOverlap ≤
      (2 * minOverlap * (height + width) + 4 * (1 - minOverlap) * width) ^ 2 := by
    rw [discrim3_eq, quadB3_def]
    nlinarith [mul_pos (mul_pos (mul_pos ho (by linarith : (0:ℝ) < 1 - minOverlap)) hw) hw,
      sq_nonneg ((1 - minOverlap) * width)]
  have h1 : Real.sqrt (quadB3 height width minOverlap ^ 2 -
      4 * quadA3 height width minOverlap * quadC3 height width minOverlap) ≤
      2 * minOverlap * (height + width) + 4 * (1 - minOverlap) * width := by
    calc Real.sqrt (quadB3 height width minOverlap ^ 2 -
        4 * quadA3 height width minOverlap * quadC3 height width minOverlap)
        ≤ Real.sqrt ((2 * minOverlap * (height + width) + 4 * (1 - minOverlap) * width) ^ 2) :=
      Real.sqrt_le_sqrt hDM
    _ = |2 * minOverlap * (height + width) + 4 * (1 - minOverlap) * width| :=
      Real.sqrt_sq_eq_abs _
    _ = 2 * minOverlap * (height + width) + 4 * (1 - minOverlap) * width :=
      abs_of_nonneg hM0
  rw [gr3_def]
  have hb := quadB3_def height width minOverlap
  linarith

lemma gr1_pos (height width minOverlap : ℝ) (hh : 0 < height) (hw : 0 < width)
    (ho : 0 < minOverlap) (ho1 : minOverlap < 1) :
    0 < gr1 height width minOverlap := by
  have h := Real.sqrt_nonneg (quadB1 height width minOverlap ^ 2 -
    4 * quadA1 height width minOverlap * quadC1 height width minOverlap)
  rw [gr1_def]
  have hb := quadB1_def height width minOverlap
  linarith

lemma gr2_pos (height width minOverlap : ℝ) (hh : 0 < height) (hw : 0 < width)
    (ho : 0 < minOverlap) (ho1 : minOverlap < 1) :
    0 < gr2 height width minOverlap := by
  have h := Real.sqrt_nonneg (quadB2 height width minOverlap ^ 2 -
    4 * quadA2 height width minOverlap * quadC2 height width minOverlap)
  rw [gr2_def]
  have hb := quadB2_def height width minOverlap
  linarith

lemma gr3_pos (height width minOverlap : ℝ) (hh : 0 < height) (hw : 0 < width)
    (ho : 0 < minOverlap) (ho1 : minOverlap < 1) :
    0 < gr3 height width minOverlap := by
  have hb := quadB3_def height width minOverlap
  have hbneg : (0:ℝ) ≤ -quadB3 height width minOverlap := by
    rw [hb]
    nlinarith
  have hlt : (-quadB3 height width minOverlap) ^ 2 <
      quadB3 height width minOverlap ^ 2 -
        4 * quadA3 height width minOverlap * quadC3 height width minOverlap := by
    rw [discrim3_eq]
    nlinarith [mul_pos (mul_pos (mul_pos ho (by linarith : (0:ℝ) < 1 - minOverlap)) hw) hh]
  have h1 : -quadB3 height width minOverlap <
      Real.sqrt (quadB3 height width minOverlap ^ 2 -
        4 * quadA3 height width minOverlap * quadC3 height width minOverlap) :=
    (Real.lt_sqrt hbneg).mpr hlt
  rw [gr3_def]
  linarith

lemma gr1_mono_left (height height' width minOverlap : ℝ) (hh : 0 < height) (hw : 0 < width)
    (ho : 0 < minOverlap) (ho1 : minOverlap < 1) (hhh : height ≤ height') :
    gr1 height width minOverlap ≤ gr1 height' width minOverlap := by
  have hroot := gr1_root height width minOverlap hh hw ho ho1
  have hge := gr1_ge_width height width minOverlap hh hw ho ho1
  have hkle : (1 - minOverlap) / (1 + minOverlap) ≤ 1 := by
    rw [div_le_one (by linarith)]
    linarith
  have hk0 : 0 ≤ (1 - minOverlap) / (1 + minOverlap) :=
    div_nonneg (by linarith) (by linarith)
  have hwk : width * ((1 - minOverlap) / (1 + minOverlap)) ≤ width := by
    nlinarith
  have key : 4 * (quadB1 height width minOverlap - quadB1 height' width minOverlap) *
        gr1 height width minOverlap +
      4 * (quadA1 height width minOverlap * quadC1 height' width minOverlap -
        quadA1 height width minOverlap * quadC1 height width minOverlap) ≤ 0 := by
    have hb : quadB1 height width minOverlap - quadB1 height' width minOverlap =
        -(height' - height) := by
      rw [quadB1_def, quadB1_def]
      ring
    have hk1 : quadA1 height width minOverlap * quadC1 height' width minOverlap -
        quadA1 height width minOverlap * quadC1 height width minOverlap =
        width * (height' - height) * ((1 - minOverlap) / (1 + minOverlap)) := by
      unfold quadA1 quadC1
      field_simp
      ring
    rw [hb, hk1]
    have hd : 0 ≤ height' - height := by linarith
    nlinarith [mul_nonneg hd (by linarith :
      (0:ℝ) ≤ gr1 height width minOverlap - width * ((1 - minOverlap) / (1 + minOverlap)))]
  rw [gr1_def height' width minOverlap,
    show quadA1 height' width minOverlap = quadA1 height width minOverlap from rfl]
  apply le_rootPlus
  nlinarith [key, hroot]

lemma gr2_mono_left (height height' width minOverlap : ℝ) (hh : 0 < height) (hw : 0 < width)
    (ho : 0 < minOverlap) (ho1 : minOverlap < 1) (hhh : height ≤ height') :
    gr2 height width minOverlap ≤ gr2 height' width minOverlap := by
  have hroot := gr2_root height width minOverlap hh hw ho ho1
  have hge := gr2_ge_two_width height width minOverlap hh hw ho ho1
  have hd : 0 ≤ height' - height := by linarith
  have key : 4 * (quadB2 height width minOverlap - quadB2 height' width minOverlap) *
        gr2 height width minOverlap +
      4 * (quadA2 height width minOverlap * quadC2 height' width minOverlap -
        quadA2 height width minOverlap * quadC2 height width minOverlap) ≤ 0 := by
    have hb : quadB2 height width minOverlap - quadB2 height' width minOverlap =
        -(2 * (height' - height)) := by
      rw [quadB2_def, quadB2_def]
      ring
    have hc : quadA2 height width minOverlap * quadC2 height' width minOverlap -
        quadA2 height width minOverlap * quadC2 height width minOverlap =
        4 * (1 - minOverlap) * width * (height' - height) := by
      unfold quadA2 quadC2
      ring
    rw [hb, hc]
    have hx : 2 * (1 - minOverlap) * width ≤ gr2 height width minOverlap := by
      nlinarith
    nlinarith [mul_nonneg hd (by linarith :
      (0:ℝ) ≤ gr2 height width minOverlap - 2 * (1 - minOverlap) * width)]
  rw [gr2_def height' width minOverlap,
    show quadA2 height' width minOverlap = quadA2 height width minOverlap from rfl]
  apply le_rootPlus
  nlinarith [key, hroot]

lemma gr3_mono_left (height height' width minOverlap : ℝ) (hh : 0 < height) (hw : 0 < width)
    (ho : 0 < minOverlap) (ho1 : minOverlap < 1) (hhh : height ≤ height') :
    gr3 height width minOverlap ≤ gr3 height' width minOverlap := by
  have hroot := gr3_root height width minOverlap hh hw ho ho1
  have hle := gr3_le height width minOverlap hh hw ho ho1
  have hd : 0 ≤ height' - height := by linarith
  have key : 4 * (quadB3 height width minOverlap - quadB3 height' width minOverlap) *
        gr3 height width minOverlap +
      4 * (quadA3 height width minOverlap * quadC3 height' width minOverlap -
        quadA3 height width minOverlap * quadC3 height width minOverlap) ≤ 0 := by
    have hb : quadB3 height width minOverlap - quadB3 height' width minOverlap =
        2 * minOverlap * (height' - height) := by
      rw [quadB3_def, quadB3_def]
      ring
    have hc : quadA3 height width minOverlap * quadC3 height' width minOverlap -
        quadA3 height width minOverlap * quadC3 height width minOverlap =
        -(4 * minOverlap * (1 - minOverlap) * width * (height' - height)) := by
      unfold quadA3 quadC3
      ring
    rw [hb, hc]
    nlinarith [mul_nonneg (mul_nonneg hd (le_of_lt ho)) (by linarith :
      (0:ℝ) ≤ 2 * (1 - minOverlap) * width - gr3 height width minOverlap)]
  rw [gr3_def height' width minOverlap,
    show quadA3 height' width minOverlap = quadA3 height width minOverlap from rfl]
  apply le_rootPlus
  nlinarith [key, hroot]

lemma gr1_symm (height width minOverlap : ℝ) :
    gr1 height width minOverlap = gr1 width height minOverlap := by
  have hb : quadB1 height width minOverlap = quadB1 width height minOverlap := by
    unfold quadB1
    ring
  have hc : quadC1 height width minOverlap = quadC1 width height minOverlap := by
    unfold quadC1
    ring
  unfold gr1
  rw [hb, hc, show quadA1 height width minOverlap = quadA1 width height minOverlap from rfl]

lemma gr2_symm (height width minOverlap : ℝ) :
    gr2 height width minOverlap = gr2 width height minOverlap := by
  have hb : quadB2 height width minOverlap = quadB2 width height minOverlap := by
    unfold quadB2
    ring
  have hc : quadC2 height width minOverlap = quadC2 width height minOverlap := by
    unfold quadC2
    ring
  unfold gr2
  rw [hb, hc, show quadA2 height width minOverlap = quadA2 width height minOverlap from rfl]

lemma gr3_symm (height width minOverlap : ℝ) :
    gr3 height width minOverlap = gr3 width height minOverlap := by
  have hb : quadB3 height width minOverlap = quadB3 width height minOverlap := by
    unfold quadB3
    ring
  have hc : quadC3 height width minOverlap = quadC3 width height minOverlap := by
    unfold quadC3
    ring
  unfold gr3
  rw [hb, hc, show quadA3 height width minOverlap = quadA3 width height minOverlap from rfl]

lemma gaussian_radius_symm (height width minOverlap : ℝ) :
    gaussian_radius height width minOverlap = gaussian_radius width height minOverlap := by
  unfold gaussian_radius
  rw [gr1_symm, gr2_symm, gr3_symm]

lemma gaussian_radius_mono_left (height height' width minOverlap : ℝ)
    (hh : 0 < height) (hw : 0 < width) (ho : 0 < minOverlap) (ho1 : minOverlap < 1)
    (hhh : height ≤ height') :
    gaussian_radius height width minOverlap ≤ gaussian_radius height' width minOverlap := by
  unfold gaussian_radius
  exact min_le_min (gr1_mono_left height height' width minOverlap hh hw ho ho1 hhh)
    (min_le_min (gr2_mono_left height height' width minOverlap hh hw ho ho1 hhh)
      (gr3_mono_left height height' width minOverlap hh hw ho ho1 hhh))

/-- C8: for every height > 0, width > 0, min_overlap in (0,1), `gaussian_radius`
is strictly positive (finiteness is inherent in the real-number model), and for
fixed min_overlap it is monotonically non-decreasing in the target size:
enlarging height and/or width never decreases the returned radius. -/
theorem gaussian_radius_pos_mono (height width height' width' minOverlap : ℝ)
    (hh : 0 < height) (hw : 0 < width) (ho : 0 < minOverlap) (ho1 : minOverlap < 1)
    (hh' : height ≤ height') (hw' : width ≤ width') :
    0 < gaussian_radius height width minOverlap ∧
      gaussian_radius height width minOverlap ≤ gaussian_radius height' width' minOverlap := by
  constructor
  · unfold gaussian_radius
    exact lt_min (gr1_pos height width minOverlap hh hw ho ho1)
      (lt_min (gr2_pos height width minOverlap hh hw ho ho1)
        (gr3_pos height width minOverlap hh hw ho ho1))
  · calc gaussian_radius height width minOverlap
        ≤ gaussian_radius height' width minOverlap :=
      gaussian_radius_mono_left height height' width minOverlap hh hw ho ho1 hh'
    _ = gaussian_radius width height' minOverlap := gaussian_radius_symm height' width minOverlap
    _ ≤ gaussian_radius width' height' minOverlap :=
      gaussian_radius_mono_left width width' height' minOverlap hw (by linarith) ho ho1 hw'
    _ = gaussian_radius height' width' minOverlap := gaussian_radius_symm width' height' minOverlap

/-- Witness for C8 at height = 1, width = 1, height' = 2, width' = 3,
min_overlap = 1/2. -/
theorem gaussian_radius_pos_mono_witness :
    (0:ℝ) < 1 ∧ (0:ℝ) < 1/2 ∧ (1:ℝ)/2 < 1 ∧ (1:ℝ) ≤ 2 ∧ (1:ℝ) ≤ 3 ∧
      (0 < gaussian_radius 1 1 (1/2) ∧
        gaussian_radius 1 1 (1/2) ≤ gaussian_radius 2 3 (1/2)) :=
  ⟨by norm_num, by norm_num, by norm_num, by norm_num, by norm_num,
    gaussian_radius_pos_mono 1 1 2 3 (1/2) (by norm_num) (by norm_num) (by norm_num)
      (by norm_num) (by norm_num) (by norm_num)⟩

lemma sqrt_eight : Real.sqrt 8 = 2 * Real.sqrt 2 := by
  rw [show (8:ℝ) = 2 ^ 2 * 2 by norm_num, Real.sqrt_mul (by positivity),
    Real.sqrt_sq (by norm_num : (0:ℝ) ≤ 2)]

lemma sqrt_two_lt_two : Real.sqrt 2 < 2 := by
  nlinarith [Real.sq_sqrt (show (0:ℝ) ≤ 2 by norm_num), Real.sqrt_nonneg 2]

lemma gr3_at : gr3 1 1 (1/2) = Real.sqrt 2 - 1 := by
  have hb3 : quadB3 1 1 (1/2) = -2 := by norm_num [quadB3]
  have ha3 : quadA3 1 1 (1/2) = 2 := by norm_num [quadA3]
  have hc3 : quadC3 1 1 (1/2) = -(1/2) := by norm_num [quadC3]
  rw [gr3_def, hb3, ha3, hc3]
  rw [show ((-2:ℝ)) ^ 2 - 4 * 2 * -(1/2) = 8 by norm_num, sqrt_eight]
  ring

lemma gaussian_radius_at : gaussian_radius 1 1 (1/2) = Real.sqrt 2 - 1 := by
  have h13 : gr3 1 1 (1/2) ≤ gr1 1 1 (1/2) := by
    have h1 := gr1_ge_width 1 1 (1/2) (by norm_num) (by norm_num) (by norm_num) (by norm_num)
    rw [gr3_at]
    have := sqrt_two_lt_two
    linarith
  have h23 : gr3 1 1 (1/2) ≤ gr2 1 1 (1/2) := by
    have h2 := gr2_ge_two_width 1 1 (1/2) (by norm_num) (by norm_num) (by norm_num) (by norm_num)
    rw [gr3_at]
    have := sqrt_two_lt_two
    linarith
  unfold gaussian_radius
  rw [min_eq_right h23, min_eq_right h13, gr3_at]

/-- C1: FALSE as stated.  At `det_size = (1, 1)`, `min_overlap = 1/2` the value
returned by `gaussian_radius` (namely `sqrt 2 - 1`, coming from the case-3
branch) is not a root of ANY of the three placement-case quadratics
`a_i*r^2 ± b_i*r + c_i = 0` built from the coefficients the function sets
(under either sign convention for the linear term), because the code divides
by `2` instead of `2*a_i`; hence the returned value is not "the minimum of the
three positive roots" of those quadratics. -/
theorem gaussian_radius_not_case_root :
    (quadA1 1 1 (1/2) * gaussian_radius 1 1 (1/2) ^ 2 +
        quadB1 1 1 (1/2) * gaussian_radius 1 1 (1/2) + quadC1 1 1 (1/2) ≠ 0) ∧
    (quadA1 1 1 (1/2) * gaussian_radius 1 1 (1/2) ^ 2 -
        quadB1 1 1 (1/2) * gaussian_radius 1 1 (1/2) + quadC1 1 1 (1/2) ≠ 0) ∧
    (quadA2 1 1 (1/2) * gaussian_radius 1 1 (1/2) ^ 2 +
        quadB2 1 1 (1/2) * gaussian_radius 1 1 (1/2) + quadC2 1 1 (1/2) ≠ 0) ∧
    (quadA2 1 1 (1/2) * gaussian_radius 1 1 (1/2) ^ 2 -
        quadB2 1 1 (1/2) * gaussian_radius 1 1 (1/2) + quadC2 1 1 (1/2) ≠ 0) ∧
    (quadA3 1 1 (1/2) * gaussian_radius 1 1 (1/2) ^ 2 +
        quadB3 1 1 (1/2) * gaussian_radius 1 1 (1/2) + quadC3 1 1 (1/2) ≠ 0) ∧
    (quadA3 1 1 (1/2) * gaussian_radius 1 1 (1/2) ^ 2 -
        quadB3 1 1 (1/2) * gaussian_radius 1 1 (1/2) + quadC3 1 1 (1/2) ≠ 0) := by
  have ha1 : quadA1 1 1 (1/2) = 1 := by norm_num [quadA1]
  have hb1 : quadB1 1 1 (1/2) = 2 := by norm_num [quadB1]
  have hc1 : quadC1 1 1 (1/2) = 1/3 := by norm_num [quadC1]
  have ha2 : quadA2 1 1 (1/2) = 4 := by norm_num [quadA2]
  have hb2 : quadB2 1 1 (1/2) = 4 := by norm_num [quadB2]
  have hc2 : quadC2 1 1 (1/2) = 1/2 := by norm_num [quadC2]
  have ha3 : quadA3 1 1 (1/2) = 2 := by norm_num [quadA3]
  have hb3 : quadB3 1 1 (1/2) = -2 := by norm_num [quadB3]
  have hc3 : quadC3 1 1 (1/2) = -(1/2) := by norm_num [quadC3]
  have hs : Real.sqrt 2 ^ 2 = 2 := Real.sq_sqrt (by norm_num)
  refine ⟨?_, ?_, ?_, ?_, ?_, ?_⟩
  · intro heq
    rw [gaussian_radius_at, ha1, hb1, hc1] at heq
    ring_nf at heq
    linarith [heq, hs]
  · intro heq
    rw [gaussian_radius_at, ha1, hb1, hc1] at heq
    ring_nf at heq
    have h2 : Real.sqrt 2 = 4/3 := by linarith [heq, hs]
    rw [h2] at hs
    norm_num at hs
  · intro heq
    rw [gaussian_radius_at, ha2, hb2, hc2] at heq
    ring_nf at heq
    have h2 : Real.sqrt 2 = 17/8 := by linarith [heq, hs]
    rw [h2] at hs
    norm_num at hs
  · intro heq
    rw [gaussian_radius_at, ha2, hb2, hc2] at heq
    ring_nf at heq
    have h2 : Real.sqrt 2 = 11/8 := by linarith [heq, hs]
    rw [h2] at hs
    norm_num at hs
  · intro heq
    rw [gaussian_radius_at, ha3, hb3, hc3] at heq
    ring_nf at heq
    have h2 : Real.sqrt 2 = 5/4 := by linarith [heq, hs]
    rw [h2] at hs
    norm_num at hs
  · intro heq
    rw [gaussian_radius_at, ha3, hb3, hc3] at heq
    ring_nf at heq
    have h2 : Real.sqrt 2 = 7/4 := by linarith [heq, hs]
    rw [h2] at hs
    norm_num at hs

/-- C1 (amended): for height, width > 0 and min_overlap in (0,1),
`gaussian_radius` returns the minimum of the three case values
`r_i = (b_i + sqrt(b_i^2 - 4*a_i*c_i)) / 2` — the implementation divides by
`2` rather than `2*a_i` (matching the reference CenterNet implementation) —
so each `r_i` is a root of the rescaled monic quadratic
`r^2 - b_i*r + a_i*c_i = 0`, which coincides with the case quadratic only for
case 1 where `a_1 = 1`. -/
theorem gaussian_radius_eq_min_halved (height width minOverlap : ℝ)
    (hh : 0 < height) (hw : 0 < width) (ho : 0 < minOverlap) (ho1 : minOverlap < 1) :
    (gaussian_radius height width minOverlap = gr1 height width minOverlap ∨
      gaussian_radius height width minOverlap = gr2 height width minOverlap ∨
      gaussian_radius height width minOverlap = gr3 height width minOverlap) ∧
    gaussian_radius height width minOverlap ≤ gr1 height width minOverlap ∧
    gaussian_radius height width minOverlap ≤ gr2 height width minOverlap ∧
    gaussian_radius height width minOverlap ≤ gr3 height width minOverlap ∧
    (gr1 height width minOverlap ^ 2 -
        quadB1 height width minOverlap * gr1 height width minOverlap +
        quadA1 height width minOverlap * quadC1 height width minOverlap = 0) ∧
    (gr2 height width minOverlap ^ 2 -
        quadB2 height width minOverlap * gr2 height width minOverlap +
        quadA2 height width minOverlap * quadC2 height width minOverlap = 0) ∧
    (gr3 height width minOverlap ^ 2 -
        quadB3 height width minOverlap * gr3 height width minOverlap +
        quadA3 height width minOverlap * quadC3 height width minOverlap = 0) := by
  refine ⟨?_, min_le_left _ _, le_trans (min_le_right _ _) (min_le_left _ _),
    le_trans (min_le_right _ _) (min_le_right _ _),
    gr1_root height width minOverlap hh hw ho ho1,
    gr2_root height width minOverlap hh hw ho ho1,
    gr3_root height width minOverlap hh hw ho ho1⟩
  unfold gaussian_radius
  rcases min_cases (gr1 height width minOverlap)
      (min (gr2 height width minOverlap) (gr3 height width minOverlap)) with h1 | h1
  · exact Or.inl h1.1
  · rcases min_cases (gr2 height width minOverlap) (gr3 height width minOverlap) with h2 | h2
    · exact Or.inr (Or.inl (h1.1.trans h2.1))
    · exact Or.inr (Or.inr (h1.1.trans h2.1))

/-- Witness for the amended C1 at height = 2, width = 3, min_overlap = 7/10. -/
theorem gaussian_radius_eq_min_halved_witness :
    (0:ℝ) < 2 ∧ (0:ℝ) < 3 ∧ (0:ℝ) < 7/10 ∧ (7:ℝ)/10 < 1 ∧
      ((gaussian_radius 2 3 (7/10) = gr1 2 3 (7/10) ∨
        gaussian_radius 2 3 (7/10) = gr2 2 3 (7/10) ∨
        gaussian_radius 2 3 (7/10) = gr3 2 3 (7/10)) ∧
      gaussian_radius 2 3 (7/10) ≤ gr1 2 3 (7/10) ∧
      gaussian_radius 2 3 (7/10) ≤ gr2 2 3 (7/10) ∧
      gaussian_radius 2 3 (7/10) ≤ gr3 2 3 (7/10) ∧
      (gr1 2 3 (7/10) ^ 2 - quadB1 2 3 (7/10) * gr1 2 3 (7/10) +
        quadA1 2 3 (7/10) * quadC1 2 3 (7/10) = 0) ∧
      (gr2 2 3 (7/10) ^ 2 - quadB2 2 3 (7/10) * gr2 2 3 (7/10) +
        quadA2 2 3 (7/10) * quadC2 2 3 (7/10) = 0) ∧
      (gr3 2 3 (7/10) ^ 2 - quadB3 2 3 (7/10) * gr3 2 3 (7/10) +
        quadA3 2 3 (7/10) * quadC3 2 3 (7/10) = 0)) :=
  ⟨by norm_num, by norm_num, by norm_num, by norm_num,
    gaussian_radius_eq_min_halved 2 3 (7/10) (by norm_num) (by norm_num)
      (by norm_num) (by norm_num)⟩

lemma sliceBound_le (L : ℕ) (a : ℤ) : sliceBound L a ≤ L := by
  unfold sliceBound
  split_ifs <;> omega

/-- On one axis, the heatmap-slice element count and the kernel-slice element
count of `draw_gaussian` are equal unless one of them is zero. -/
lemma slice_counts (L r : ℕ) (z : ℤ) :
    sliceBound L (z + min ((L : ℤ) - z) ((r : ℤ) + 1)) -
        sliceBound L (z - min z (r : ℤ)) =
      sliceBound (2 * r + 1) ((r : ℤ) + min ((L : ℤ) - z) ((r : ℤ) + 1)) -
        sliceBound (2 * r + 1) ((r : ℤ) - min z (r : ℤ)) ∨
    sliceBound L (z + min ((L : ℤ) - z) ((r : ℤ) + 1)) -
        sliceBound L (z - min z (r : ℤ)) = 0 ∨
    sliceBound (2 * r + 1) ((r : ℤ) + min ((L : ℤ) - z) ((r : ℤ) + 1)) -
        sliceBound (2 * r + 1) ((r : ℤ) - min z (r : ℤ)) = 0 := by
  unfold sliceBound
  split_ifs <;> omega

lemma drawRegion_row_counts (H W : ℕ) (cx cy : ℝ) (r : ℕ) :
    (drawRegion H W cx cy r).re - (drawRegion H W cx cy r).rs =
      (drawRegion H W cx cy r).gre - (drawRegion H W cx cy r).grs ∨
    (drawRegion H W cx cy r).re - (drawRegion H W cx cy r).rs = 0 ∨
    (drawRegion H W cx cy r).gre - (drawRegion H W cx cy r).grs = 0 := by
  have h := slice_counts H r (pyround cy)
  simp only [drawRegion]
  exact h

lemma drawRegion_col_counts (H W : ℕ) (cx cy : ℝ) (r : ℕ) :
    (drawRegion H W cx cy r).ce - (drawRegion H W cx cy r).cs =
      (drawRegion H W cx cy r).gce - (drawRegion H W cx cy r).gcs ∨
    (drawRegion H W cx cy r).ce - (drawRegion H W cx cy r).cs = 0 ∨
    (drawRegion H W cx cy r).gce - (drawRegion H W cx cy r).gcs = 0 := by
  have h := slice_counts W r (pyround cx)
  simp only [drawRegion]
  exact h

/-- `draw_gaussian` never hits the broadcasting-error branch: it always
succeeds and returns `drawFun`. -/
lemma draw_gaussian_ok (H W : ℕ) (heat : ℕ → ℕ → ℝ) (cx cy : ℝ) (r : ℕ) (k : ℝ) :
    draw_gaussian H W heat cx cy r k = Except.ok (drawFun H W heat cx cy r k) := by
  unfold draw_gaussian drawFun
  by_cases hg : 0 < (drawRegion H W cx cy r).re - (drawRegion H W cx cy r).rs ∧
      0 < (drawRegion H W cx cy r).ce - (drawRegion H W cx cy r).cs ∧
      0 < (drawRegion H W cx cy r).gre - (drawRegion H W cx cy r).grs ∧
      0 < (drawRegion H W cx cy r).gce - (drawRegion H W cx cy r).gcs
  · rw [if_pos hg, if_pos hg]
    rw [if_pos]
    constructor
    · rcases drawRegion_row_counts H W cx cy r with h | h | h
      · exact Or.inl h.symm
      · omega
      · omega
    · rcases drawRegion_col_counts H W cx cy r with h | h | h
      · exact Or.inl h.symm
      · omega
      · omega
  · rw [if_neg hg, if_neg hg]

/-- C4: for every heatmap shape `(H, W)` with `H, W ≥ 1`, every radius and
every center — including centers whose rounded coordinates lie outside the
canvas — `draw_gaussian` performs no out-of-bounds access and raises no
exception (it always returns `Except.ok`); it modifies only the cells of the
clipped destination slice `heatmap[y-top : y+bottom, x-left : x+right]`, and
when the clipped region is empty on either axis (of either view) the heatmap
is returned entirely unchanged. -/
theorem draw_gaussian_safe (H W : ℕ) (heat : ℕ → ℕ → ℝ) (cx cy : ℝ) (r : ℕ) (k : ℝ)
    (hH : 1 ≤ H) (hW : 1 ≤ W) :
    ∃ f, draw_gaussian H W heat cx cy r k = Except.ok f ∧
      (∀ i j, ¬((drawRegion H W cx cy r).rs ≤ i ∧ i < (drawRegion H W cx cy r).re ∧
          (drawRegion H W cx cy r).cs ≤ j ∧ j < (drawRegion H W cx cy r).ce) →
        f i j = heat i j) ∧
      (((drawRegion H W cx cy r).re - (drawRegion H W cx cy r).rs = 0 ∨
        (drawRegion H W cx cy r).ce - (drawRegion H W cx cy r).cs = 0 ∨
        (drawRegion H W cx cy r).gre - (drawRegion H W cx cy r).grs = 0 ∨
        (drawRegion H W cx cy r).gce - (drawRegion H W cx cy r).gcs = 0) →
        ∀ i j, f i j = heat i j) := by
  refine ⟨drawFun H W heat cx cy r k, draw_gaussian_ok H W heat cx cy r k, ?_, ?_⟩
  · intro i j hij
    unfold drawFun
    by_cases h1 : 0 < (drawRegion H W cx cy r).re - (drawRegion H W cx cy r).rs ∧
        0 < (drawRegion H W cx cy r).ce - (drawRegion H W cx cy r).cs ∧
        0 < (drawRegion H W cx cy r).gre - (drawRegion H W cx cy r).grs ∧
        0 < (drawRegion H W cx cy r).gce - (drawRegion H W cx cy r).gcs
    · rw [if_pos h1]
      rw [if_neg hij]
    · rw [if_neg h1]
  · intro hempty i j
    unfold drawFun
    rw [if_neg (by omega :
      ¬(0 < (drawRegion H W cx cy r).re - (drawRegion H W cx cy r).rs ∧
        0 < (drawRegion H W cx cy r).ce - (drawRegion H W cx cy r).cs ∧
        0 < (drawRegion H W cx cy r).gre - (drawRegion H W cx cy r).grs ∧
        0 < (drawRegion H W cx cy r).gce - (drawRegion H W cx cy r).gcs))]

/-- Witness for C4 at the spec's example: center `(0, 0)`, radius 3 on a
`10 x 10` zero heatmap with amplitude 1. -/
theorem draw_gaussian_safe_witness :
    (1 ≤ 10 ∧ 1 ≤ 10) ∧
      (∃ f, draw_gaussian 10 10 (fun _ _ => (0:ℝ)) 0 0 3 1 = Except.ok f ∧
        (∀ i j, ¬((drawRegion 10 10 0 0 3).rs ≤ i ∧ i < (drawRegion 10 10 0 0 3).re ∧
            (drawRegion 10 10 0 0 3).cs ≤ j ∧ j < (drawRegion 10 10 0 0 3).ce) →
          f i j = (fun _ _ => (0:ℝ)) i j) ∧
        (((drawRegion 10 10 0 0 3).re - (drawRegion 10 10 0 0 3).rs = 0 ∨
          (drawRegion 10 10 0 0 3).ce - (drawRegion 10 10 0 0 3).cs = 0 ∨
          (drawRegion 10 10 0 0 3).gre - (drawRegion 10 10 0 0 3).grs = 0 ∨
          (drawRegion 10 10 0 0 3).gce - (drawRegion 10 10 0 0 3).gcs = 0) →
          ∀ i j, f i j = (fun _ _ => (0:ℝ)) i j)) :=
  ⟨⟨by norm_num, by norm_num⟩,
    draw_gaussian_safe 10 10 (fun _ _ => (0:ℝ)) 0 0 3 1 (by norm_num) (by norm_num)⟩

/-- C5: `draw_gaussian` is idempotent — applying it twice with the same
arguments yields exactly the same heatmap contents as applying it once,
because the max-combine makes the second stamp a no-op on values. -/
theorem draw_gaussian_idem (H W : ℕ) (heat : ℕ → ℕ → ℝ) (cx cy : ℝ) (r : ℕ) (k : ℝ) :
    (draw_gaussian H W heat cx cy r k).bind
        (fun heat2 => draw_gaussian H W heat2 cx cy r k) =
      draw_gaussian H W heat cx cy r k := by
  rw [draw_gaussian_ok H W heat cx cy r k]
  show draw_gaussian H W (drawFun H W heat cx cy r k) cx cy r k = _
  rw [draw_gaussian_ok H W (drawFun H W heat cx cy r k) cx cy r k]
  congr 1
  funext i j
  unfold drawFun
  by_cases h1 : 0 < (drawRegion H W cx cy r).re - (drawRegion H W cx cy r).rs ∧
      0 < (drawRegion H W cx cy r).ce - (drawRegion H W cx cy r).cs ∧
      0 < (drawRegion H W cx cy r).gre - (drawRegion H W cx cy r).grs ∧
      0 < (drawRegion H W cx cy r).gce - (drawRegion H W cx cy r).gcs
  · simp only [if_pos h1]
    by_cases h2 : (drawRegion H W cx cy r).rs ≤ i ∧ i < (drawRegion H W cx cy r).re ∧
        (drawRegion H W cx cy r).cs ≤ j ∧ j < (drawRegion H W cx cy r).ce
    · simp only [if_pos h2]
      rw [max_assoc, max_self]
    · simp only [if_neg h2]
  · simp only [if_neg h1]

lemma ratTrunc_intCast (z : ℤ) : ratTrunc (z : ℚ) = z := by
  unfold ratTrunc
  split_ifs with h
  · exact Int.floor_intCast z
  · rw [show -(z:ℚ) = ((-z : ℤ) : ℚ) by push_cast; ring, Int.floor_intCast]
    ring

/-- The selected indices are exactly `clip(base - n//2 + i, 0, length-1)`. -/
lemma selectIndices_eq (length n : ℕ) (base : ℤ) (hodd : Odd n) :
    selectIndices length n base =
      (List.range n).map
        (fun (i : ℕ) => npclip (base - (n / 2 : ℕ) + (i : ℤ)) 0 ((length : ℤ) - 1)) := by
  obtain ⟨m, hm⟩ := hodd
  by_cases h1 : n = 1
  · subst h1
    unfold selectIndices linspace
    rw [if_pos rfl]
    rw [show List.range 1 = [0] from rfl]
    simp only [List.map_cons, List.map_nil]
    rw [ratTrunc_intCast]
    norm_num
  · unfold selectIndices linspace
    rw [if_neg h1, List.map_map]
    apply List.map_congr_left
    intro i _
    have hm2 : n / 2 = m := by omega
    have hstep : (((base + (n / 2 : ℕ) : ℤ) : ℚ) - ((base - (n / 2 : ℕ) : ℤ) : ℚ)) /
        ((n : ℚ) - 1) = 1 := by
      have hnq : ((n : ℚ) - 1) = 2 * m := by
        rw [hm]
        push_cast
        ring
      rw [hnq, hm2]
      have hm1 : 1 ≤ m := by omega
      have hm0 : (0:ℚ) < 2 * m := by
        have : (1:ℚ) ≤ m := by exact_mod_cast hm1
        linarith
      push_cast
      rw [div_eq_one_iff_eq (by linarith)]
      ring
    simp only [Function.comp_apply]
    rw [hstep, mul_one]
    rw [show ((base - (n / 2 : ℕ) : ℤ) : ℚ) + (i : ℚ) =
      ((base - (n / 2 : ℕ) + (i : ℤ) : ℤ) : ℚ) by push_cast; ring]
    rw [ratTrunc_intCast]

/-- C3: for every list of length `L ≥ 1`, every odd `n ≥ 1` and every integer
base index, `_select_n_elements` returns the elements at indices
`clip(base_index - n//2 + i, 0, L-1)` for `i = 0 .. n-1`, in that order, and
no selected index is ever negative or `≥ L`. -/
theorem selectNElements_spec {α : Type} [Inhabited α] (lst : List α) (n : ℕ)
    (base : ℤ) (hL : 1 ≤ lst.length) (hodd : Odd n) :
    selectNElements lst n base =
      (List.range n).map (fun (i : ℕ) =>
        lst.getD (npclip (base - (n / 2 : ℕ) + (i : ℤ)) 0 ((lst.length : ℤ) - 1)).toNat
          default) ∧
    ∀ idx ∈ selectIndices lst.length n base, 0 ≤ idx ∧ idx < (lst.length : ℤ) := by
  constructor
  · unfold selectNElements
    rw [selectIndices_eq lst.length n base hodd, List.map_map]
    rfl
  · intro idx hidx
    rw [selectIndices_eq lst.length n base hodd] at hidx
    simp only [List.mem_map, List.mem_range] at hidx
    obtain ⟨i, _, hval⟩ := hidx
    unfold npclip at hval
    omega

/-- Witness for C3 at the spec's example: `n = 3`, a list of length 5 and
`base_index = 0`, where the clamped indices are `[0, 0, 1]`. -/
theorem selectNElements_spec_witness :
    (1 ≤ ([10, 20, 30, 40, 50] : List ℤ).length ∧ Odd 3) ∧
      (selectNElements ([10, 20, 30, 40, 50] : List ℤ) 3 0 =
        (List.range 3).map (fun (i : ℕ) =>
          ([10, 20, 30, 40, 50] : List ℤ).getD
            (npclip ((0:ℤ) - (3 / 2 : ℕ) + (i : ℤ)) 0
              ((([10, 20, 30, 40, 50] : List ℤ).length : ℤ) - 1)).toNat default) ∧
        ∀ idx ∈ selectIndices ([10, 20, 30, 40, 50] : List ℤ).length 3 0,
          0 ≤ idx ∧ idx < (([10, 20, 30, 40, 50] : List ℤ).length : ℤ)) ∧
      selectIndices 5 3 0 = [0, 0, 1] ∧
      selectNElements ([10, 20, 30, 40, 50] : List ℤ) 3 0 = [10, 10, 20] :=
  ⟨⟨by decide, by decide⟩,
    selectNElements_spec ([10, 20, 30, 40, 50] : List ℤ) 3 0 (by decide) (by decide),
    by rw [selectIndices_eq 5 3 0 (by decide)]; decide,
    by rw [(selectNElements_spec ([10, 20, 30, 40, 50] : List ℤ) 3 0 (by decide)
        (by decide)).1]; decide⟩

/-- C9: if no file in the series directory has an instance-number token equal
to the row's `instance_number`, `__getitem__` fails with the assertion error
even when `use_center = True` — the assertion runs before the center-of-series
substitution, in both indexing modes. -/
theorem v2BaseIndex_assert (instanceNumbers : List ℤ) (baseInstanceNumber : ℤ)
    (h : ∀ x ∈ instanceNumbers, x ≠ baseInstanceNumber) :
    ∀ useCenter : Bool, v2BaseIndex instanceNumbers baseInstanceNumber useCenter =
      Except.error "base_index is not found." := by
  intro useCenter
  unfold v2BaseIndex
  rw [List.findIdx?_eq_none_iff.mpr]
  intro x hx
  simpa using h x hx

/-- Witness for C9: instance numbers `[1, 2, 3]`, requested instance `5`. -/
theorem v2BaseIndex_assert_witness :
    (∀ x ∈ ([1, 2, 3] : List ℤ), x ≠ 5) ∧
      (∀ useCenter : Bool, v2BaseIndex [1, 2, 3] 5 useCenter =
        Except.error "base_index is not found.") :=
  ⟨by decide, v2BaseIndex_assert [1, 2, 3] 5 (by decide)⟩

lemma sum_map_one {β : Type} (l : List β) :
    (l.map (fun _ => (1:ℝ))).sum = l.length := by
  induction l with
  | nil => simp
  | cons a t ih =>
    simp [ih]
    ring

/-- C7 (amended): with `gamma = 0`, `FocalLoss` equals plain weighted
cross-entropy with the same weights, targets and ignore_index for the `sum`
reduction and term-by-term (the `none` reduction); for the `mean` reduction
they agree when no class-weight vector is configured, but in general
`FocalLoss` divides by the surviving-row count while torch weighted
cross-entropy divides by the total selected class weight. -/
theorem focalLoss_gamma_zero_eq_ce (alpha : Option (List ℝ)) (ignoreIndex : ℤ)
    (x : List (List ℝ)) (y : List ℤ) :
    focalLoss alpha 0 Reduction.sum ignoreIndex x y =
        crossEntropyLoss alpha Reduction.sum ignoreIndex x y ∧
      focalTerms alpha 0 ignoreIndex x y = ceTerms alpha ignoreIndex x y ∧
      (alpha = none →
        focalLoss alpha 0 Reduction.mean ignoreIndex x y =
          crossEntropyLoss alpha Reduction.mean ignoreIndex x y) := by
  have hterms : focalTerms alpha 0 ignoreIndex x y = ceTerms alpha ignoreIndex x y := by
    unfold focalTerms ceTerms
    apply List.map_congr_left
    intro p _
    rw [Real.rpow_zero, one_mul]
    ring
  refine ⟨?_, hterms, ?_⟩
  · unfold focalLoss crossEntropyLoss
    by_cases hk : (keptRows x y ignoreIndex).isEmpty
    · rw [if_pos hk]
      rw [List.isEmpty_iff] at hk
      unfold ceTerms
      rw [hk]
      simp
    · rw [if_neg hk, hterms]
  · intro halpha
    subst halpha
    unfold focalLoss crossEntropyLoss
    by_cases hk : (keptRows x y ignoreIndex).isEmpty
    · rw [if_pos hk]
      rw [List.isEmpty_iff] at hk
      unfold ceTerms
      rw [hk]
      simp
    · rw [if_neg hk, hterms]
      have hw : (keptRows x y ignoreIndex).map
            (fun p => classWeight none p.2.toNat) =
          (keptRows x y ignoreIndex).map (fun _ => (1:ℝ)) :=
        List.map_congr_left (fun p _ => rfl)
      rw [hw, sum_map_one]
      unfold ceTerms
      rw [List.length_map]

/-- Witness for the amended C7 at `alpha = none`, one logits row `[0, 1]`
with target 0. -/
theorem focalLoss_gamma_zero_eq_ce_witness :
    (focalLoss none 0 Reduction.sum (-100) [[0, 1]] [0] =
        crossEntropyLoss none Reduction.sum (-100) [[0, 1]] [0]) ∧
      (focalTerms none 0 (-100) [[0, 1]] [0] = ceTerms none (-100) [[0, 1]] [0]) ∧
      (focalLoss none 0 Reduction.mean (-100) [[0, 1]] [0] =
        crossEntropyLoss none Reduction.mean (-100) [[0, 1]] [0]) :=
  ⟨(focalLoss_gamma_zero_eq_ce none (-100) [[0, 1]] [0]).1,
    (focalLoss_gamma_zero_eq_ce none (-100) [[0, 1]] [0]).2.1,
    (focalLoss_gamma_zero_eq_ce none (-100) [[0, 1]] [0]).2.2 rfl⟩

/-- C7: FALSE as stated for the `mean` reduction with a non-uniform class
weight: with `alpha = [1, 2]`, logits `[[0, 0], [0, 0]]` and targets
`[0, 1]`, `FocalLoss(gamma=0, reduction='mean')` returns `(3/2) * log 2`
while torch weighted cross-entropy returns `log 2`. -/
theorem focalLoss_mean_ne_ce :
    focalLoss (some [1, 2]) 0 Reduction.mean (-100) [[0, 0], [0, 0]] [0, 1] ≠
      crossEntropyLoss (some [1, 2]) Reduction.mean (-100) [[0, 0], [0, 0]] [0, 1] := by
  have hkept : keptRows [[(0:ℝ), 0], [0, 0]] [0, 1] (-100) =
      [([0, 0], 0), ([0, 0], 1)] := rfl
  have hls0 : logSoftmaxAt [(0:ℝ), 0] 0 = -Real.log 2 := by
    unfold logSoftmaxAt
    simp [Real.exp_zero]
    norm_num
  have hls1 : logSoftmaxAt [(0:ℝ), 0] 1 = -Real.log 2 := by
    unfold logSoftmaxAt
    simp [Real.exp_zero]
    norm_num
  have hlog : (0:ℝ) < Real.log 2 := Real.log_pos (by norm_num)
  unfold focalLoss crossEntropyLoss focalTerms ceTerms
  rw [hkept]
  simp only [List.isEmpty_cons, List.map_cons, List.map_nil, List.sum_cons,
    List.sum_nil, List.length_cons, List.length_nil]
  simp only [classWeight, Int.toNat_zero, Int.toNat_one, List.getD, hls0, hls1,
    Real.rpow_zero, one_mul]
  norm_num
  intro h
  nlinarith [hlog, h]

/-- C2: for every `RSNA2024Loss` configuration with `level_loss_weight > 0`
(and the usual non-empty condition/level lists), calling `forward` with level
targets in which every entry of every level column equals the ignore sentinel
`-100` raises the empty-stack error in the level-loss branch (every level
column is skipped, so `torch.stack(level_losses)` receives an empty list); it
does not return a zero or skipped level loss. -/
theorem rsnaForward_allIgnored (numConditions numLevels : ℕ)
    (conditionWeight : ℕ → ℝ) (overallLossWeight levelLossWeight : ℝ)
    (celoss : ℕ → ℕ → ℝ) (levelloss : ℕ → ℝ) (levelTargets : ℕ → List ℤ)
    (hc : 0 < numConditions) (hl : 0 < numLevels) (hw : 0 < levelLossWeight)
    (ht : ∀ li, li < numLevels → ∀ t ∈ levelTargets li, t = -100) :
    rsnaForward numConditions numLevels conditionWeight overallLossWeight
        levelLossWeight celoss levelloss levelTargets =
      Except.error "stack expects a non-empty TensorList" := by
  unfold rsnaForward
  have hmem : celoss 0 0 * conditionWeight 0 ∈
      (List.range numConditions).flatMap (fun ci =>
        (List.range numLevels).map (fun li => celoss ci li * conditionWeight ci)) :=
    List.mem_flatMap.mpr
      ⟨0, List.mem_range.mpr hc, List.mem_map.mpr ⟨0, List.mem_range.mpr hl, rfl⟩⟩
  have hne : ((List.range numConditions).flatMap (fun ci =>
      (List.range numLevels).map
        (fun li => celoss ci li * conditionWeight ci))).isEmpty = false := by
    rcases hh : ((List.range numConditions).flatMap (fun ci =>
        (List.range numLevels).map
          (fun li => celoss ci li * conditionWeight ci))).isEmpty with _ | _
    · rfl
    · rw [List.isEmpty_iff] at hh
      rw [hh] at hmem
      exact absurd hmem (List.not_mem_nil _)
  have h1 : stackMean ((List.range numConditions).flatMap (fun ci =>
      (List.range numLevels).map (fun li => celoss ci li * conditionWeight ci))) =
      Except.ok (((List.range numConditions).flatMap (fun ci =>
        (List.range numLevels).map (fun li => celoss ci li * conditionWeight ci))).sum /
        ((List.range numConditions).flatMap (fun ci =>
          (List.range numLevels).map
            (fun li => celoss ci li * conditionWeight ci))).length) := by
    unfold stackMean
    rw [hne]
    rfl
  rw [h1]
  show (if 0 < levelLossWeight then _ else _ : Except String (ℝ × ℝ × ℝ)) = _
  rw [if_pos hw]
  have hll : (List.range numLevels).filterMap (fun li =>
      if (levelTargets li).any (fun t => t != -100) then some (levelloss li)
      else none) = [] := by
    rw [List.filterMap_eq_nil_iff]
    intro li hli
    rw [if_neg]
    rw [List.any_eq_true]
    rintro ⟨t, htmem, htne⟩
    rw [List.mem_range] at hli
    have := ht li hli t htmem
    simp [this] at htne
  rw [hll]
  rfl

/-- Witness for C2: the default five conditions and five levels, a batch of
two rows whose level targets are all `-100`, unit partial losses and
`level_loss_weight = 1/2`. -/
theorem rsnaForward_allIgnored_witness :
    (0 < 5 ∧ 0 < 5 ∧ (0:ℝ) < 1/2 ∧
      (∀ li, li < 5 → ∀ t ∈ ([-100, -100] : List ℤ), t = -100)) ∧
      rsnaForward 5 5 (fun _ => 1) 1 (1/2) (fun _ _ => 0) (fun _ => 0)
          (fun _ => [-100, -100]) =
        Except.error "stack expects a non-empty TensorList" :=
  ⟨⟨by norm_num, by norm_num, by norm_num,
    by intro li _ t htm; simp only [List.mem_cons, List.not_mem_nil, or_false] at htm; tauto⟩,
    rsnaForward_allIgnored 5 5 (fun _ => 1) 1 (1/2) (fun _ _ => 0) (fun _ => 0)
      (fun _ => [-100, -100]) (by norm_num) (by norm_num) (by norm_num)
      (by
        intro li _ t htm
        simp only [List.mem_cons, List.not_mem_nil, or_false] at htm
        tauto)⟩

lemma lookup_filter_self (k : String) (d : List (String × CfgVal)) :
    List.lookup k (d.filter (fun p => p.1 != k)) = none := by
  induction d with
  | nil => rfl
  | cons a t ih =>
    by_cases h : a.1 = k
    · rw [show (a :: t).filter (fun p => p.1 != k) = t.filter (fun p => p.1 != k) by
        simp [List.filter, h]]
      exact ih
    · rw [show (a :: t).filter (fun p => p.1 != k) =
          a :: t.filter (fun p => p.1 != k) by
        simp [List.filter_cons, bne_iff_ne, h]]
      rw [show List.lookup k (a :: t.filter (fun p => p.1 != k)) =
          List.lookup k (t.filter (fun p => p.1 != k)) by
        simp [List.lookup, beq_false_of_ne (fun he => h he.symm)]]
      exact ih

lemma lookup_filter_ne (k k' : String) (h : k ≠ k') (d : List (String × CfgVal)) :
    List.lookup k (d.filter (fun p => p.1 != k')) = List.lookup k d := by
  induction d with
  | nil => rfl
  | cons a t ih =>
    by_cases ha : a.1 = k'
    · rw [show (a :: t).filter (fun p => p.1 != k') = t.filter (fun p => p.1 != k') by
        simp [List.filter_cons, ha]]
      rw [ih]
      rw [show List.lookup k (a :: t) = List.lookup k t by
        simp [List.lookup, beq_false_of_ne (show k ≠ a.1 by rw [ha]; exact h)]]
    · rw [show (a :: t).filter (fun p => p.1 != k') =
          a :: t.filter (fun p => p.1 != k') by
        simp [List.filter_cons, bne_iff_ne, ha]]
      by_cases hk : k = a.1
      · subst hk
        simp [List.lookup]
      · rw [show List.lookup k (a :: t.filter (fun p => p.1 != k')) =
            List.lookup k (t.filter (fun p => p.1 != k')) by
          simp [List.lookup, beq_false_of_ne hk]]
        rw [show List.lookup k (a :: t) = List.lookup k t by
          simp [List.lookup, beq_false_of_ne hk]]
        exact ih

lemma lookup_append_cfg (k : String) (l1 l2 : List (String × CfgVal)) :
    List.lookup k (l1 ++ l2) = (List.lookup k l1).or (List.lookup k l2) := by
  induction l1 with
  | nil => simp [List.lookup]
  | cons a t ih =>
    rw [List.cons_append]
    by_cases h : k = a.1
    · subst h
      simp [List.lookup]
    · simp [List.lookup, beq_false_of_ne h, ih]

/-- C10: every successful construction of `RSNA2024Loss` mutates the caller's
`ce_loss` dict in place: the `'name'` key is removed; when present, the
`'weight'` entry (CrossEntropyLoss) or `'alpha'` entry (FocalLoss) is popped
and re-inserted as a tensor; the dict is never left unchanged, so reusing the
same dict for a second construction raises a KeyError on the missing
`'name'` key. -/
theorem rsna2024LossInit_mutates (d : List (String × CfgVal)) (kind : String)
    (d' : List (String × CfgVal))
    (h : rsna2024LossInit d = Except.ok (kind, d')) :
    List.lookup "name" d' = none ∧
    d' ≠ d ∧
    rsna2024LossInit d' = Except.error PyErr.keyError ∧
    (∀ l : List ℚ, List.lookup "name" d = some (CfgVal.str "CrossEntropyLoss") →
      List.lookup "weight" d = some (CfgVal.nums l) →
      List.lookup "weight" d' = some (CfgVal.tensor l)) ∧
    (∀ l : List ℚ, List.lookup "name" d = some (CfgVal.str "FocalLoss") →
      List.lookup "alpha" d = some (CfgVal.nums l) →
      List.lookup "alpha" d' = some (CfgVal.tensor l)) := by
  unfold rsna2024LossInit at h
  rcases hname : List.lookup "name" d with _ | v
  · rw [hname] at h
    cases h
  · rw [hname] at h
    simp only [] at h
    have hnw : ("name" : String) ≠ "weight" := by decide
    have hna : ("name" : String) ≠ "alpha" := by decide
    have hwn : ("weight" : String) ≠ "name" := by decide
    have han : ("alpha" : String) ≠ "name" := by decide
    by_cases h1 : v = CfgVal.str "CrossEntropyLoss"
    · rw [if_pos h1] at h
      rcases hw : List.lookup "weight" (d.filter (fun p => p.1 != "name")) with _ | w
      · rw [hw] at h
        injection h with h
        injection h with hkind hd
        subst hd
        have hc1 : List.lookup "name" (d.filter (fun p => p.1 != "name")) = none :=
          lookup_filter_self "name" d
        refine ⟨hc1, ?_, ?_, ?_, ?_⟩
        · intro he
          rw [← he] at hname
          rw [hc1] at hname
          cases hname
        · unfold rsna2024LossInit
          rw [hc1]
        · intro l _ hweight2
          rw [lookup_filter_ne "weight" "name" hwn d] at hw
          rw [hweight2] at hw
          cases hw
        · intro l hname2 _
          injection hname2 with hv
          rw [h1] at hv
          exact absurd hv (by decide)
      · rw [hw] at h
        injection h with h
        injection h with hkind hd
        subst hd
        have hc1 : List.lookup "name"
            (((d.filter (fun p => p.1 != "name")).filter (fun p => p.1 != "weight")) ++
              [("weight", tensorize w)]) = none := by
          rw [lookup_append_cfg]
          rw [lookup_filter_ne "name" "weight" hnw]
          rw [lookup_filter_self "name" d]
          rfl
        refine ⟨hc1, ?_, ?_, ?_, ?_⟩
        · intro he
          rw [← he] at hname
          rw [hc1] at hname
          cases hname
        · unfold rsna2024LossInit
          rw [hc1]
        · intro l hname2 hweight2
          rw [lookup_filter_ne "weight" "name" hwn d, hweight2] at hw
          injection hw with hw
          rw [lookup_append_cfg]
          rw [lookup_filter_self "weight" _]
          rw [← hw]
          rfl
        · intro l hname2 _
          injection hname2 with hv
          rw [h1] at hv
          exact absurd hv (by decide)
    · rw [if_neg h1] at h
      by_cases h2 : v = CfgVal.str "FocalLoss"
      · rw [if_pos h2] at h
        rcases ha : List.lookup "alpha" (d.filter (fun p => p.1 != "name")) with _ | a
        · rw [ha] at h
          injection h with h
          injection h with hkind hd
          subst hd
          have hc1 : List.lookup "name" (d.filter (fun p => p.1 != "name")) = none :=
            lookup_filter_self "name" d
          refine ⟨hc1, ?_, ?_, ?_, ?_⟩
          · intro he
            rw [← he] at hname
            rw [hc1] at hname
            cases hname
          · unfold rsna2024LossInit
            rw [hc1]
          · intro l hname2 _
            injection hname2 with hv
            rw [h2] at hv
            exact absurd hv (by decide)
          · intro l _ halpha2
            rw [lookup_filter_ne "alpha" "name" han d] at ha
            rw [halpha2] at ha
            cases ha
        · rw [ha] at h
          injection h with h
          injection h with hkind hd
          subst hd
          have hc1 : List.lookup "name"
              (((d.filter (fun p => p.1 != "name")).filter (fun p => p.1 != "alpha")) ++
                [("alpha", tensorize a)]) = none := by
            rw [lookup_append_cfg]
            rw [lookup_filter_ne "name" "alpha" hna]
            rw [lookup_filter_self "name" d]
            rfl
          refine ⟨hc1, ?_, ?_, ?_, ?_⟩
          · intro he
            rw [← he] at hname
            rw [hc1] at hname
            cases hname
          · unfold rsna2024LossInit
            rw [hc1]
          · intro l hname2 _
            injection hname2 with hv
            rw [h2] at hv
            exact absurd hv (by decide)
          · intro l hname2 halpha2
            rw [lookup_filter_ne "alpha" "name" han d, halpha2] at ha
            injection ha with ha
            rw [lookup_append_cfg]
            rw [lookup_filter_self "alpha" _]
            rw [← ha]
            rfl
      · rw [if_neg h2] at h
        cases h

/-- Witness for C10: the repository's default config
`dict(name='CrossEntropyLoss', weight=[1.0, 2.0, 4.0])`. -/
theorem rsna2024LossInit_mutates_witness :
    rsna2024LossInit
        [("name", CfgVal.str "CrossEntropyLoss"), ("weight", CfgVal.nums [1, 2, 4])] =
      Except.ok ("CrossEntropyLoss", [("weight", CfgVal.tensor [1, 2, 4])]) ∧
    (List.lookup "name" [("weight", CfgVal.tensor [1, 2, 4])] = none ∧
      ([("weight", CfgVal.tensor [1, 2, 4])] : List (String × CfgVal)) ≠
        [("name", CfgVal.str "CrossEntropyLoss"), ("weight", CfgVal.nums [1, 2, 4])] ∧
      rsna2024LossInit [("weight", CfgVal.tensor [1, 2, 4])] =
        Except.error PyErr.keyError ∧
      (∀ l : List ℚ, List.lookup "name"
          [("name", CfgVal.str "CrossEntropyLoss"), ("weight", CfgVal.nums [1, 2, 4])] =
          some (CfgVal.str "CrossEntropyLoss") →
        List.lookup "weight"
          [("name", CfgVal.str "CrossEntropyLoss"), ("weight", CfgVal.nums [1, 2, 4])] =
          some (CfgVal.nums l) →
        List.lookup "weight" [("weight", CfgVal.tensor [1, 2, 4])] =
          some (CfgVal.tensor l)) ∧
      (∀ l : List ℚ, List.lookup "name"
          [("name", CfgVal.str "CrossEntropyLoss"), ("weight", CfgVal.nums [1, 2, 4])] =
          some (CfgVal.str "FocalLoss") →
        List.lookup "alpha"
          [("name", CfgVal.str "CrossEntropyLoss"), ("weight", CfgVal.nums [1, 2, 4])] =
          some (CfgVal.nums l) →
        List.lookup "alpha" [("weight", CfgVal.tensor [1, 2, 4])] =
          some (CfgVal.tensor l))) :=
  ⟨rfl, rsna2024LossInit_mutates
    [("name", CfgVal.str "CrossEntropyLoss"), ("weight", CfgVal.nums [1, 2, 4])]
    "CrossEntropyLoss" [("weight", CfgVal.tensor [1, 2, 4])] rfl⟩

lemma gauss2Draw_nonneg (r gi gj : ℕ) : 0 ≤ gauss2Draw r gi gj :=
  le_of_lt (Real.exp_pos _)

lemma gauss2Draw_le_one (r gi gj : ℕ) : gauss2Draw r gi gj ≤ 1 := by
  unfold gauss2Draw
  rw [Real.exp_le_one_iff]
  apply div_nonpos_of_nonpos_of_nonneg
  · exact neg_nonpos.mpr (add_nonneg (sq_nonneg _) (sq_nonneg _))
  · positivity

lemma gauss2D_nonneg (r gi gj : ℕ) : 0 ≤ gauss2D r gi gj := by
  unfold gauss2D
  split_ifs
  · exact le_refl 0
  · exact gauss2Draw_nonneg r gi gj

lemma gauss2D_le_one (r gi gj : ℕ) : gauss2D r gi gj ≤ 1 := by
  unfold gauss2D
  split_ifs
  · exact zero_le_one
  · exact gauss2Draw_le_one r gi gj

lemma drawRegion_re_le (H W : ℕ) (cx cy : ℝ) (r : ℕ) :
    (drawRegion H W cx cy r).re ≤ H := by
  simp only [drawRegion]
  exact sliceBound_le _ _

lemma drawRegion_ce_le (H W : ℕ) (cx cy : ℝ) (r : ℕ) :
    (drawRegion H W cx cy r).ce ≤ W := by
  simp only [drawRegion]
  exact sliceBound_le _ _

lemma drawFun_bound (H W : ℕ) (heat : ℕ → ℕ → ℝ) (cx cy : ℝ) (r : ℕ)
    (hb : ∀ i j, 0 ≤ heat i j ∧ heat i j ≤ 1) :
    ∀ i j, 0 ≤ drawFun H W heat cx cy r 1 i j ∧ drawFun H W heat cx cy r 1 i j ≤ 1 := by
  intro i j
  unfold drawFun
  by_cases h1 : 0 < (drawRegion H W cx cy r).re - (drawRegion H W cx cy r).rs ∧
      0 < (drawRegion H W cx cy r).ce - (drawRegion H W cx cy r).cs ∧
      0 < (drawRegion H W cx cy r).gre - (drawRegion H W cx cy r).grs ∧
      0 < (drawRegion H W cx cy r).gce - (drawRegion H W cx cy r).gcs
  · rw [if_pos h1]
    by_cases h2 : (drawRegion H W cx cy r).rs ≤ i ∧ i < (drawRegion H W cx cy r).re ∧
        (drawRegion H W cx cy r).cs ≤ j ∧ j < (drawRegion H W cx cy r).ce
    · simp only [if_pos h2]
      constructor
      · exact le_max_of_le_left (hb i j).1
      · apply max_le (hb i j).2
        rw [mul_one]
        exact gauss2D_le_one _ _ _
    · simp only [if_neg h2]
      exact hb i j
  · rw [if_neg h1]
    exact hb i j

lemma drawFun_outside (H W : ℕ) (heat : ℕ → ℕ → ℝ) (cx cy : ℝ) (r : ℕ) (k : ℝ)
    (i j : ℕ) (hij : H ≤ i ∨ W ≤ j) :
    drawFun H W heat cx cy r k i j = heat i j := by
  have hre := drawRegion_re_le H W cx cy r
  have hce := drawRegion_ce_le H W cx cy r
  unfold drawFun
  by_cases h1 : 0 < (drawRegion H W cx cy r).re - (drawRegion H W cx cy r).rs ∧
      0 < (drawRegion H W cx cy r).ce - (drawRegion H W cx cy r).cs ∧
      0 < (drawRegion H W cx cy r).gre - (drawRegion H W cx cy r).grs ∧
      0 < (drawRegion H W cx cy r).gce - (drawRegion H W cx cy r).gcs
  · rw [if_pos h1]
    by_cases h2 : (drawRegion H W cx cy r).rs ≤ i ∧ i < (drawRegion H W cx cy r).re ∧
        (drawRegion H W cx cy r).cs ≤ j ∧ j < (drawRegion H W cx cy r).ce
    · omega
    · simp only [if_neg h2]
  · rw [if_neg h1]

lemma stampKeypoints_ok (H W r stride : ℕ) (kpts : List ((ℝ × ℝ) × String))
    (hm : ℕ → ℕ → ℕ → ℝ) (hsome : ∀ p ∈ kpts, (labelIndex p.2).isSome) :
    stampKeypoints H W r stride kpts hm =
      Except.ok (stampKeypointsFun H W r stride kpts hm) := by
  induction kpts generalizing hm with
  | nil => rfl
  | cons p rest ih =>
    obtain ⟨c, hc⟩ := Option.isSome_iff_exists.mp (hsome p (List.mem_cons_self p rest))
    rw [show stampKeypoints H W r stride (p :: rest) hm =
        match labelIndex p.2 with
        | none => Except.error "KeyError"
        | some c =>
          match draw_gaussian H W (hm c) (p.1.1 / (stride : ℝ))
              (p.1.2 / (stride : ℝ)) r 1 with
          | Except.error e => Except.error e
          | Except.ok ch =>
            stampKeypoints H W r stride rest (fun c' => if c' = c then ch else hm c')
      from rfl]
    rw [hc]
    simp only []
    rw [draw_gaussian_ok]
    simp only []
    rw [show stampKeypointsFun H W r stride (p :: rest) hm =
        stampKeypointsFun H W r stride rest (fun c' =>
          if labelIndex p.2 = some c' then
            drawFun H W (hm c') (p.1.1 / (stride : ℝ)) (p.1.2 / (stride : ℝ)) r 1
          else hm c') from rfl]
    rw [ih _ (fun q hq => hsome q (List.mem_cons_of_mem p hq))]
    congr 1
    apply congrArg
    funext c'
    by_cases hcc : c' = c
    · subst hcc
      rw [if_pos rfl, if_pos hc]
    · rw [if_neg hcc, if_neg]
      rw [hc]
      intro he
      injection he with he
      exact hcc he.symm

lemma stampKeypointsFun_channel (H W r stride : ℕ)
    (kpts : List ((ℝ × ℝ) × String)) (hm : ℕ → ℕ → ℕ → ℝ) (c : ℕ) :
    stampKeypointsFun H W r stride kpts hm c =
      List.foldl (fun ch p =>
          drawFun H W ch (p.1.1 / (stride : ℝ)) (p.1.2 / (stride : ℝ)) r 1)
        (hm c) (kpts.filter (fun p => labelIndex p.2 == some c)) := by
  induction kpts generalizing hm with
  | nil => rfl
  | cons p rest ih =>
    rw [show stampKeypointsFun H W r stride (p :: rest) hm =
        stampKeypointsFun H W r stride rest (fun c' =>
          if labelIndex p.2 = some c' then
            drawFun H W (hm c') (p.1.1 / (stride : ℝ)) (p.1.2 / (stride : ℝ)) r 1
          else hm c') from rfl]
    rw [ih]
    by_cases hp : labelIndex p.2 = some c
    · rw [show (p :: rest).filter (fun p => labelIndex p.2 == some c) =
          p :: rest.filter (fun p => labelIndex p.2 == some c) by
        simp [List.filter_cons, hp]]
      rw [List.foldl_cons]
      rw [if_pos hp]
    · rw [show (p :: rest).filter (fun p => labelIndex p.2 == some c) =
          rest.filter (fun p => labelIndex p.2 == some c) by
        simp [List.filter_cons, hp]]
      rw [if_neg hp]

lemma foldl_draw_bound (H W r stride : ℕ) (l : List ((ℝ × ℝ) × String))
    (ch : ℕ → ℕ → ℝ) (hb : ∀ i j, 0 ≤ ch i j ∧ ch i j ≤ 1) :
    ∀ i j, 0 ≤ (List.foldl (fun ch p =>
        drawFun H W ch (p.1.1 / (stride : ℝ)) (p.1.2 / (stride : ℝ)) r 1) ch l) i j ∧
      (List.foldl (fun ch p =>
        drawFun H W ch (p.1.1 / (stride : ℝ)) (p.1.2 / (stride : ℝ)) r 1) ch l) i j ≤ 1 := by
  induction l generalizing ch with
  | nil => exact hb
  | cons p rest ih =>
    rw [List.foldl_cons]
    exact ih _ (drawFun_bound H W ch _ _ r hb)

lemma foldl_draw_outside (H W r stride : ℕ) (l : List ((ℝ × ℝ) × String))
    (ch : ℕ → ℕ → ℝ) (hz : ∀ i j, H ≤ i ∨ W ≤ j → ch i j = 0) :
    ∀ i j, H ≤ i ∨ W ≤ j → (List.foldl (fun ch p =>
        drawFun H W ch (p.1.1 / (stride : ℝ)) (p.1.2 / (stride : ℝ)) r 1) ch l) i j = 0 := by
  induction l generalizing ch with
  | nil => exact hz
  | cons p rest ih =>
    rw [List.foldl_cons]
    apply ih
    intro i j hij
    rw [drawFun_outside _ _ _ _ _ _ _ _ _ hij]
    exact hz i j hij

lemma labelIndex_inj (s1 s2 : String) (c : ℕ) (h1 : labelIndex s1 = some c)
    (h2 : labelIndex s2 = some c) : s1 = s2 := by
  unfold labelIndex at h1 h2
  split_ifs at h1 h2 <;> simp_all <;> omega

lemma labelIndex_lt_five (s : String) (c : ℕ) (h : labelIndex s = some c) :
    c < 5 := by
  unfold labelIndex at h
  split_ifs at h <;> (injection h with h; omega)

lemma countP_label_le_one (kpts : List ((ℝ × ℝ) × String))
    (hnd : (kpts.map Prod.snd).Nodup) (c : ℕ) :
    kpts.countP (fun p => labelIndex p.2 == some c) ≤ 1 := by
  induction kpts with
  | nil => simp
  | cons p rest ih =>
    rw [List.map_cons, List.nodup_cons] at hnd
    rw [List.countP_cons]
    by_cases hp : labelIndex p.2 = some c
    · have hz : rest.countP (fun p => labelIndex p.2 == some c) = 0 := by
        rw [List.countP_eq_zero]
        intro q hq hbeq
        rw [beq_iff_eq] at hbeq
        have : q.2 = p.2 := labelIndex_inj q.2 p.2 c hbeq hp
        exact hnd.1 (this ▸ List.mem_map_of_mem Prod.snd hq)
      rw [hz]
      simp [hp]
    · have : (labelIndex p.2 == some c) = false := by
        rw [beq_eq_false_iff_ne]
        exact hp
      rw [this]
      simpa using ih hnd.2

/-- C6: for every example of either keypoint dataset (amplitude `k = 1`, any
radius), the returned heatmap has shape `(5, h // stride, w // stride)`
(channels `≥ 5` and cells beyond `h // stride` rows or `w // stride` columns
are never touched and stay zero), every value lies in `[0, 1]`, each channel
is stamped by at most one Gaussian (the surviving class labels are distinct),
and every channel whose anatomical level is not among the keypoints surviving
augmentation remains identically zero. -/
theorem datasetHeatmap_invariants (h w stride hmHeight hmWidth : ℕ)
    (kpts : List ((ℝ × ℝ) × String)) (hstride : 0 < stride)
    (hlabels : ∀ p ∈ kpts, p.2 ∈ ["L1/L2", "L2/L3", "L3/L4", "L4/L5", "L5/S1"])
    (hnodup : (kpts.map Prod.snd).Nodup) :
    ∃ hmF, datasetHeatmap h w stride hmHeight hmWidth kpts = Except.ok hmF ∧
      (∀ c i j, 0 ≤ hmF c i j ∧ hmF c i j ≤ 1) ∧
      (∀ c i j, 5 ≤ c ∨ h / stride ≤ i ∨ w / stride ≤ j → hmF c i j = 0) ∧
      (∀ c, (∀ p ∈ kpts, labelIndex p.2 ≠ some c) → ∀ i j, hmF c i j = 0) ∧
      (∀ c, kpts.countP (fun p => labelIndex p.2 == some c) ≤ 1) := by
  have hsome : ∀ p ∈ kpts, (labelIndex p.2).isSome := by
    intro p hp
    have hmem := hlabels p hp
    simp only [List.mem_cons, List.not_mem_nil, or_false] at hmem
    rcases hmem with hs | hs | hs | hs | hs <;> (rw [hs]; rfl)
  refine ⟨stampKeypointsFun (h / stride) (w / stride)
      (datasetRadius hmHeight hmWidth stride) stride kpts (fun _ _ _ => 0),
    stampKeypoints_ok _ _ _ _ kpts _ hsome, ?_, ?_, ?_, ?_⟩
  · intro c i j
    rw [stampKeypointsFun_channel]
    exact foldl_draw_bound _ _ _ _ _ _ (fun i j => ⟨le_refl 0, zero_le_one⟩) i j
  · intro c i j hc
    rw [stampKeypointsFun_channel]
    rcases hc with hc | hc
    · have hnil : kpts.filter (fun p => labelIndex p.2 == some c) = [] := by
        rw [List.filter_eq_nil_iff]
        intro p _
        rw [beq_iff_eq]
        intro he
        have := labelIndex_lt_five p.2 c he
        omega
      rw [hnil]
      rfl
    · exact foldl_draw_outside _ _ _ _ _ _ (fun _ _ _ => rfl) i j hc
  · intro c hnone i j
    rw [stampKeypointsFun_channel]
    have hnil : kpts.filter (fun p => labelIndex p.2 == some c) = [] := by
      rw [List.filter_eq_nil_iff]
      intro p hp
      rw [beq_iff_eq]
      exact hnone p hp
    rw [hnil]
    rfl
  · intro c
    exact countP_label_le_one kpts hnodup c

/-- Witness for C6 at the spec's example: a `40 x 40` image, stride 4,
heatmap_size `(20, 20)`, one surviving keypoint at `(8, 8)` on level
`L1/L2`. -/
theorem datasetHeatmap_invariants_witness :
    (0 < 4 ∧
      (∀ p ∈ ([((8, 8), "L1/L2")] : List ((ℝ × ℝ) × String)),
        p.2 ∈ ["L1/L2", "L2/L3", "L3/L4", "L4/L5", "L5/S1"]) ∧
      (([((8, 8), "L1/L2")] : List ((ℝ × ℝ) × String)).map Prod.snd).Nodup) ∧
      (∃ hmF, datasetHeatmap 40 40 4 20 20 [((8, 8), "L1/L2")] = Except.ok hmF ∧
        (∀ c i j, 0 ≤ hmF c i j ∧ hmF c i j ≤ 1) ∧
        (∀ c i j, 5 ≤ c ∨ 40 / 4 ≤ i ∨ 40 / 4 ≤ j → hmF c i j = 0) ∧
        (∀ c, (∀ p ∈ ([((8, 8), "L1/L2")] : List ((ℝ × ℝ) × String)),
          labelIndex p.2 ≠ some c) → ∀ i j, hmF c i j = 0) ∧
        (∀ c, ([((8, 8), "L1/L2")] : List ((ℝ × ℝ) × String)).countP
          (fun p => labelIndex p.2 == some c) ≤ 1)) :=
  ⟨⟨by norm_num,
    by
      intro p hp
      rw [List.mem_singleton] at hp
      subst hp
      decide,
    by
      rw [List.map_singleton]
      exact List.nodup_singleton _⟩,
    datasetHeatmap_invariants 40 40 4 20 20 [((8, 8), "L1/L2")] (by norm_num)
      (by
        intro p hp
        rw [List.mem_singleton] at hp
        subst hp
        decide)
      (by
        rw [List.map_singleton]
        exact List.nodup_singleton _)⟩

end RSNA
